import Mathlib

/-!
Verification development for the passport-OCR text-to-record extraction
engine (`backend/app/ocr_service.py`).  The Python code is shallowly
embedded over `List Char`; Python's `str` methods and the specific regular
expressions used by the source are modelled by executable Lean functions.
Unicode-dependent `str` behaviour (`upper`, `isalpha`, `isdigit`, `\w`) is
modelled at the ASCII level, which is the alphabet all MRZ processing and
all claims range over.  Float comparisons of the form `count/len > 0.7`
are modelled by the exact rational inequality (`10*count > 7*len`), which
agrees with IEEE double semantics for every string length below 10^15.
-/

set_option maxRecDepth 8000

namespace OcrService

/-- Strings of the embedded program: Python `str` as a list of chars. -/
abbrev Str := List Char

/-- Convert a Lean string literal to the embedded string type. -/
def toL (s : String) : Str := s.toList

/-- Python `'A' <= c <= 'Z'` / the regex class `[A-Z]`. -/
def isUpperAZ (c : Char) : Bool := 'A' ≤ c ∧ c ≤ 'Z'

/-- The regex class `[A-Z0-9]`. -/
def isUpperAlnum (c : Char) : Bool := isUpperAZ c || c.isDigit

/-- The MRZ character class `[A-Z0-9<]`. -/
def isMrzChar (c : Char) : Bool := isUpperAlnum c || c = '<'

/-- Python whitespace for `str.strip` and the regex class `\s` (ASCII part). -/
def pyWs (c : Char) : Bool :=
  c = ' ' || c = '\t' || c = '\n' || c = '\r' || c = '\x0b' || c = '\x0c'

/-- Python `str.upper`, per character (ASCII). -/
def pyUpper (s : Str) : Str := s.map Char.toUpper

/-- Python `str.strip()`: drop whitespace from both ends. -/
def pyStrip (s : Str) : Str :=
  ((s.dropWhile pyWs).reverse.dropWhile pyWs).reverse

/-- Python `str.rstrip('<')`. -/
def rstripLt (s : Str) : Str :=
  (s.reverse.dropWhile (fun c => c = '<')).reverse

/-- Python `str.startswith`. -/
def pyStartsWith (pre s : Str) : Bool := pre.isPrefixOf s

/-- Python `pat in s` (substring containment). -/
def containsSub (pat : Str) : Str → Bool
  | [] => pat.isPrefixOf []
  | c :: rest => pat.isPrefixOf (c :: rest) || containsSub pat rest

/-- Python `str.split(sep)` for a single-character separator. -/
def splitChar (sep : Char) : Str → List Str
  | [] => [[]]
  | c :: rest =>
    if c = sep then [] :: splitChar sep rest
    else
      match splitChar sep rest with
      | h :: t => (c :: h) :: t
      | [] => [[c]]

/-- Python `str.split('<<')` (non-overlapping, left to right). -/
def splitDD : Str → List Str
  | [] => [[]]
  | '<' :: '<' :: rest => [] :: splitDD rest
  | c :: rest =>
    match splitDD rest with
    | h :: t => (c :: h) :: t
    | [] => [[c]]

/-- Python `str.split()` with no argument: split on whitespace runs, no empties. -/
def pySplitWs (s : Str) : List Str :=
  (splitChar ' ' (s.map (fun c => if pyWs c then ' ' else c))).filter (fun p => p ≠ [])

/-- Python `re.sub(r' +', ' ', s)`: collapse runs of spaces to one space. -/
def squeeze : Str → Str
  | [] => []
  | [c] => [c]
  | c :: d :: rest =>
    if c = ' ' ∧ d = ' ' then squeeze (d :: rest)
    else c :: squeeze (d :: rest)

/-- Python `int` on a nonempty digit string (the only way the source calls it). -/
def strToNat (s : Str) : Nat :=
  s.foldl (fun a c => 10 * a + (c.toNat - '0'.toNat)) 0

/-- Python `'x'.join(parts)`. -/
def joinWith (sep : Str) : List Str → Str
  | [] => []
  | [p] => p
  | p :: q :: rest => p ++ sep ++ joinWith sep (q :: rest)

/-- Python `s[:44].ljust(44, '<')`: the MRZ line normalization. -/
def norm44 (s : Str) : Str :=
  s.take 44 ++ List.replicate (44 - (s.take 44).length) '<'

/-- `re.sub(r'[^A-Z0-9<]', '', line.upper())`: the locator's per-line cleaning. -/
def cleanLine (s : Str) : Str := (pyUpper s).filter isMrzChar

/-- Python `day.zfill(2)`. -/
def zfill2 (s : Str) : Str :=
  if s.length < 2 then List.replicate (2 - s.length) '0' ++ s else s

/-- The names of the six claim-relevant record fields, as they appear in
`low_confidence_fields`. -/
def fnFirstS : Str := toL "first_name"
def fnLastS : Str := toL "last_name"
def fnPassS : Str := toL "passport_number"
def fnDobS : Str := toL "date_of_birth"
def fnGenderS : Str := toL "gender"
def fnNatS : Str := toL "nationality"

/-- The list of all six flaggable field names. -/
def sixFieldNames : List Str :=
  [fnFirstS, fnLastS, fnPassS, fnDobS, fnGenderS, fnNatS]

/-- The `PassportData` dataclass (fields in source order; the float
`confidence` is modelled exactly in fixed-point hundredths: `0.8 ↦ 80`,
`0.5 ↦ 50`, `0.3 ↦ 30`). -/
structure PassportData where
  first_name : Str := []
  middle_name : Str := []
  last_name : Str := []
  gender : Str := []
  date_of_birth : Str := []
  nationality : Str := []
  passport_number : Str := []
  confidence : Nat := 0
  low_confidence_fields : List Str := []
deriving DecidableEq, Repr

end OcrService

namespace OcrService

/-!
**A small interpreter for the source's regular expressions**

The source uses `re.match` / `re.search` / `re.sub` / `re.findall` with
patterns built from literals, character classes, greedy `*`/`+`/`?`/`{m,n}`
over character classes, alternation, word boundaries, anchors and capture
groups.  `RE` is the term language; matching is a backtracking interpreter
with Python's priority order (leftmost start position; alternatives in
written order; greedy quantifiers try longer matches first).
-/

/-- Regex terms.  `star`/`rep` quantify over a character class, which covers
every quantifier in the source's patterns. -/
inductive RE where
  | eps : RE
  | cls (p : Char → Bool) : RE
  | seq (a b : RE) : RE
  | alt (a b : RE) : RE
  | star (p : Char → Bool) : RE
  | rep (p : Char → Bool) (lo hi : Nat) : RE
  | bound : RE
  | bol : RE
  | eol : RE
  | group (n : Nat) (a : RE) : RE

/-- Captured groups: group number paired with the captured text. -/
abbrev Caps := List (Nat × Str)

/-- Python `\w` (ASCII alphanumerics, `_`, and non-ASCII letters as used by
the source's accented label patterns). -/
def pyWordChar (c : Char) : Bool := c.isAlphanum || c = '_' || 0xC0 ≤ c.toNat

/-- A `\b` word boundary between the previously consumed char and the rest. -/
def isBoundary (prev : Option Char) (s : Str) : Bool :=
  (match prev with | some c => pyWordChar c | none => false)
    ≠ (match s with | c :: _ => pyWordChar c | [] => false)

/-- Matcher continuations: previous char, remaining input, captures so far. -/
abbrev ReK (β : Type) := Option Char → Str → Caps → Option β

/-- Greedy Kleene star over a character class (longer matches tried first). -/
def starMatch {β : Type} (p : Char → Bool) : Option Char → Str → Caps → ReK β → Option β
  | prev, [], caps, k => k prev [] caps
  | prev, c :: rest, caps, k =>
    if p c then
      match starMatch p (some c) rest caps k with
      | some r => some r
      | none => k prev (c :: rest) caps
    else k prev (c :: rest) caps

/-- Greedy bounded repetition `{lo, hi}` over a character class. -/
def repMatch {β : Type} (p : Char → Bool) (lo : Nat) : Nat → Option Char → Str → Caps → ReK β → Option β
  | 0, prev, s, caps, k => if lo = 0 then k prev s caps else none
  | hi + 1, prev, s, caps, k =>
    match s with
    | [] => if lo = 0 then k prev [] caps else none
    | c :: rest =>
      if p c then
        if lo = 0 then
          match repMatch p 0 hi (some c) rest caps k with
          | some r => some r
          | none => k prev (c :: rest) caps
        else repMatch p (lo - 1) hi (some c) rest caps k
      else if lo = 0 then k prev (c :: rest) caps else none

/-- The backtracking matcher. -/
def reMatch {β : Type} : RE → Option Char → Str → Caps → ReK β → Option β
  | .eps, prev, s, caps, k => k prev s caps
  | .cls p, _, s, caps, k =>
    match s with
    | [] => none
    | c :: rest => if p c then k (some c) rest caps else none
  | .seq a b, prev, s, caps, k =>
    reMatch a prev s caps (fun p2 s2 c2 => reMatch b p2 s2 c2 k)
  | .alt a b, prev, s, caps, k =>
    match reMatch a prev s caps k with
    | some r => some r
    | none => reMatch b prev s caps k
  | .star p, prev, s, caps, k => starMatch p prev s caps k
  | .rep p lo hi, prev, s, caps, k => repMatch p lo hi prev s caps k
  | .bound, prev, s, caps, k => if isBoundary prev s then k prev s caps else none
  | .bol, prev, s, caps, k => if prev.isNone then k prev s caps else none
  | .eol, prev, s, caps, k => if s.isEmpty then k prev s caps else none
  | .group n a, prev, s, caps, k =>
    reMatch a prev s caps
      (fun p2 s2 c2 => k p2 s2 ((n, s.take (s.length - s2.length)) :: c2))

/-- `re.match(pat, s)`: anchored at the start; returns the captures. -/
def reMatchStart (r : RE) (s : Str) : Option Caps :=
  reMatch r none s [] (fun _ _ caps => some caps)

/-- `bool(re.match(pat, s))`. -/
def reMatchTest (r : RE) (s : Str) : Bool := (reMatchStart r s).isSome

/-- `re.search`: try each start position from the left. -/
def reSearchAux (r : RE) : Option Char → Str → Option Caps
  | prev, s =>
    match reMatch r prev s [] (fun _ _ caps => some caps) with
    | some caps => some caps
    | none =>
      match s with
      | [] => none
      | c :: rest => reSearchAux r (some c) rest

/-- `re.search(pat, s)` with captures. -/
def reSearch (r : RE) (s : Str) : Option Caps := reSearchAux r none s

/-- `bool(re.search(pat, s))`. -/
def reTest (r : RE) (s : Str) : Bool := (reSearch r s).isSome

/-- `match.group(n)` (empty for an unset group, which the source never reads). -/
def capGet (n : Nat) (caps : Caps) : Str :=
  match caps.find? (fun x => x.1 = n) with
  | some x => x.2
  | none => []

/-- One matching step returning the char before / input after the match. -/
def reMatchEnd (r : RE) (prev : Option Char) (s : Str) : Option (Option Char × Str) :=
  reMatch r prev s [] (fun p2 s2 _ => some (p2, s2))

/-- `re.sub(pat, '', s)`: delete every non-overlapping match, scanning left
to right (fuelled by the input length; every source pattern consumes at
least one char per match). -/
def reSubAllAux (r : RE) : Nat → Option Char → Str → Str
  | 0, _, s => s
  | fuel + 1, prev, s =>
    match reMatchEnd r prev s with
    | some (p2, s2) =>
      if s2.length < s.length then reSubAllAux r fuel p2 s2
      else
        match s with
        | [] => []
        | c :: rest => c :: reSubAllAux r fuel (some c) rest
    | none =>
      match s with
      | [] => []
      | c :: rest => c :: reSubAllAux r fuel (some c) rest

/-- `re.sub(pat, '', s)`. -/
def reSubAll (r : RE) (s : Str) : Str := reSubAllAux r (s.length + 1) none s

/-- `re.findall(pat, s)`: captures of every non-overlapping match. -/
def reFindAllAux (r : RE) : Nat → Option Char → Str → List Caps
  | 0, _, _ => []
  | fuel + 1, prev, s =>
    match reMatch r prev s [] (fun p2 s2 caps => some ((p2, s2), caps)) with
    | some ((p2, s2), caps) =>
      if s2.length < s.length then caps :: reFindAllAux r fuel p2 s2
      else
        match s with
        | [] => [caps]
        | c :: rest => caps :: reFindAllAux r fuel (some c) rest
    | none =>
      match s with
      | [] => []
      | c :: rest => reFindAllAux r fuel (some c) rest

/-- `re.findall(pat, s)`. -/
def reFindAll (r : RE) (s : Str) : List Caps := reFindAllAux r (s.length + 1) none s

/-- Sequencing a list of regex terms. -/
def seqList (rs : List RE) : RE := rs.foldr RE.seq .eps

/-- A literal string pattern. -/
def lit (s : String) : RE := seqList (s.toList.map (fun c => RE.cls (fun d => d = c)))

/-- A literal string pattern under `re.IGNORECASE` (ASCII case folding). -/
def litCI (s : String) : RE :=
  seqList (s.toList.map (fun c => RE.cls (fun d => d.toUpper = c.toUpper)))

/-- Alternation of a list of patterns, in written order. -/
def altList : List RE → RE
  | [] => .cls (fun _ => false)
  | [r] => r
  | r :: rs => .alt r (altList rs)

/-- Greedy `p?` for a single character class. -/
def optCls (p : Char → Bool) : RE := .rep p 0 1

/-- Greedy `p+` for a character class. -/
def plusCls (p : Char → Bool) : RE := .seq (.cls p) (.star p)

/-- The regex `.` (any char but newline). -/
def dotCls (c : Char) : Bool := c ≠ '\n'

/-- The char preceding the rest after consuming `l` (for `\\b` tracking). -/
def lastOf (prev : Option Char) (l : Str) : Option Char :=
  match l.getLast? with
  | some c => some c
  | none => prev

end OcrService

namespace OcrService

/-! ## MRZ validators, scorer, and Tier-1 field parser -/

/-- The regex class `[0-9<]`. -/
def digitFiller (c : Char) : Bool := c.isDigit || c = '<'

/-- The regex class `[MF<]`. -/
def mfFiller (c : Char) : Bool := c = 'M' || c = 'F' || c = '<'

/-- `r'^[A-Z0-9<]{9}[0-9<][A-Z]{3}[0-9]{6}[0-9<][MF<]'` (validate_mrz_line2). -/
def line2RE : RE :=
  seqList [.rep isMrzChar 9 9, .cls digitFiller, .rep isUpperAZ 3 3,
    .rep Char.isDigit 6 6, .cls digitFiller, .cls mfFiller]

/-- `r'^[A-Z0-9<]{9}[0-9<][A-Z]{3}[0-9]{6}'` (the locator's Line-2 shape test). -/
def line2ShapeRE : RE :=
  seqList [.rep isMrzChar 9 9, .cls digitFiller, .rep isUpperAZ 3 3,
    .rep Char.isDigit 6 6]

/-- `r'^[A-Z]{3}$'`. -/
def upper3RE : RE := seqList [.rep isUpperAZ 3 3, .eol]

/-- `r'^[0-9]{6}$'`. -/
def digits6RE : RE := seqList [.rep Char.isDigit 6 6, .eol]

/-- `validate_mrz_line1`. -/
def validate_mrz_line1 (line : Str) : Bool :=
  if line = [] ∨ line.length < 30 then false
  else if ¬ pyStartsWith (toL "P<") line then false
  else if ¬ containsSub (toL "<<") line then false
  else if ¬ reMatchTest upper3RE ((line.drop 2).take 3) then false
  else if 2 < ((line.drop 5).filter Char.isDigit).length then false
  else true

/-- `validate_mrz_line2`. -/
def validate_mrz_line2 (line : Str) : Bool :=
  if line = [] ∨ line.length < 30 then false
  else if ¬ reMatchTest line2RE line then false
  else true

/-- `score_mrz_line2` (scores are small; `Int` because the pairing loop
subtracts a distance penalty). -/
def score_mrz_line2 (line : Str) : Int :=
  let s1 : Int := if 40 ≤ line.length ∧ line.length ≤ 48 then 10 else 0
  let s2 : Int := if 7 ≤ ((line.take 9).filter (fun c => c ≠ '<')).length then 20 else 0
  let nationality := if 13 < line.length then (line.drop 10).take 3 else []
  let s3 : Int :=
    if reMatchTest upper3RE nationality ∧ ¬ containsSub (toL "<") nationality then 15 else 0
  let sex : Str := if 20 < line.length then [line.getD 20 ' '] else []
  let s4 : Int := if sex = toL "M" ∨ sex = toL "F" then 10 else 0
  let dob := if 19 < line.length then (line.drop 13).take 6 else []
  let s5 : Int := if reMatchTest digits6RE dob then 15 else 0
  s1 + s2 + s3 + s4 + s5

/-- `format_date`: convert `YYMMDD` to `DD/MM/YYYY`; on failure return the
input unchanged with `False`.  (The source's `try/except` around `int()`
cannot fire: the six chars are digit-filtered before conversion.) -/
def format_date (date_str : Str) : Str × Bool :=
  if date_str = [] ∨ date_str.length < 6 then (date_str, false)
  else
    let cleaned := (date_str.take 6).filter Char.isDigit
    if cleaned.length ≠ 6 then (date_str, false)
    else
      let yy := cleaned.take 2
      let mm := (cleaned.drop 2).take 2
      let dd := cleaned.drop 4
      let dd_int := strToNat dd
      let mm_int := strToNat mm
      if 1 ≤ dd_int ∧ dd_int ≤ 31 ∧ 1 ≤ mm_int ∧ mm_int ≤ 12 then
        let year := strToNat yy
        let full_year := if year ≤ 30 then '2' :: '0' :: yy else '1' :: '9' :: yy
        (dd ++ '/' :: (mm ++ '/' :: full_year), true)
      else (date_str, false)

/-- `clean_passport_number`: strip filler, uppercase, validate
`^[A-Z0-9]{5,12}$`. -/
def clean_passport_number (number : Str) : Str × Bool :=
  if number = [] then ([], false)
  else
    let cleaned := pyUpper (pyStrip (number.filter (fun c => c ≠ '<')))
    let is_valid := 5 ≤ cleaned.length ∧ cleaned.length ≤ 12 ∧ cleaned.all isUpperAlnum
    (cleaned, is_valid)

/-- `clean_country_code`: uppercase, strip filler, truncate to 3, validate
`^[A-Z]{3}$`. -/
def clean_country_code (code : Str) : Str × Bool :=
  let c := (pyStrip ((pyUpper code).filter (fun ch => ch ≠ '<'))).take 3
  (c, c.length = 3 ∧ c.all isUpperAZ)

/-- `parse_mrz_names`: split the Line-1 names section into
(first, middle, last, low-confidence field names). -/
def parse_mrz_names (names_section : Str) : Str × Str × Str × List Str :=
  if names_section = [] then ([], [], [], [fnFirstS, fnLastS])
  else
    let ns := rstripLt names_section
    match splitDD ns with
    | [] => ([], [], [], [fnFirstS, fnLastS])
    | last_name_raw :: restParts =>
      let last_name := pyUpper (pyStrip (last_name_raw.map (fun c => if c = '<' then ' ' else c)))
      let last_name := pyStrip (squeeze last_name)
      let lcLast : List Str :=
        if last_name.length < 2 ∨ ¬ (last_name ≠ [] ∧ last_name.all (fun c => isUpperAZ c || pyWs c))
        then [fnLastS] else []
      match restParts with
      | [] => ([], [], last_name, lcLast ++ [fnFirstS])
      | r :: rs =>
        let given_section := rstripLt (joinWith (toL "<<") (r :: rs))
        let given_names := (splitChar '<' given_section).filter (fun n => n ≠ [] ∧ 2 ≤ n.length)
        match given_names with
        | [] => ([], [], last_name, lcLast ++ [fnFirstS])
        | g0 :: gs =>
          let first_name := pyUpper g0
          let lcFirst : List Str :=
            if first_name.length < 2 ∨ ¬ (first_name ≠ [] ∧ first_name.all isUpperAZ)
            then [fnFirstS] else []
          let middle_name :=
            if gs ≠ [] then
              joinWith (toL " ")
                ((gs.filter (fun n => n ≠ [] ∧ n.all isUpperAZ)).map pyUpper)
            else []
          (first_name, middle_name, last_name, lcLast ++ lcFirst)

/-- `parse_mrz_manual`: the manual TD3 decoder (Tier 1 fallback path). -/
def parse_mrz_manual (line1 line2 : Str) : PassportData :=
  let names_part := if 5 < line1.length then line1.drop 5 else []
  let pr := parse_mrz_names names_part
  let first_name := pr.1
  let middle_name := pr.2.1
  let last_name := pr.2.2.1
  let name_confidence := pr.2.2.2
  let passport_num_raw := if 9 < line2.length then line2.take 9 else []
  let pnr := clean_passport_number passport_num_raw
  let passport_num := pnr.1
  let lcPn : List Str := if ¬ pnr.2 then [fnPassS] else []
  let nationality_raw := if 13 < line2.length then (line2.drop 10).take 3 else []
  let ncr := clean_country_code nationality_raw
  let nationality := ncr.1
  let lcNat : List Str := if ¬ ncr.2 then [fnNatS] else []
  let dob_raw := if 19 < line2.length then (line2.drop 13).take 6 else []
  let dr := format_date dob_raw
  let dob := dr.1
  let lcDob : List Str := if ¬ dr.2 then [fnDobS] else []
  let sex : Str := if 20 < line2.length then [line2.getD 20 ' '] else []
  let gender := if sex = toL "M" ∨ sex = toL "F" then sex else []
  let lcGen : List Str := if gender = [] then [fnGenderS] else []
  let low := name_confidence ++ lcPn ++ lcNat ++ lcDob ++ lcGen
  ⟨first_name, middle_name, last_name, gender, dob, nationality, passport_num,
    if low = [] then 80 else 50, low.dedup⟩

end OcrService

namespace OcrService

/-! ## Name/value plausibility checks and the reconciliation engine -/

/-- The literal garbage substrings of `is_valid_name`. -/
def nameGarbageSubs : List Str :=
  [toL "OFISRA", toL "FISRA", toL "ISRAEL", toL "STATE", toL "PASAPORT", toL "PASSPORT",
   toL "SPRIN", toL "SUMA", toL "MAON", toL "ROMANA", toL "DOCUMENT", toL "REPUBLIC"]

/-- Longest run of consecutive consonants (the `consec`/`max_consec` loop). -/
def maxConsecAux : Str → Nat → Nat → Nat
  | [], _, maxc => maxc
  | c :: rest, cur, maxc =>
    if (toL "BCDFGHJKLMNPQRSTVWXYZ").contains c then
      maxConsecAux rest (cur + 1) (max maxc (cur + 1))
    else maxConsecAux rest 0 maxc

/-- `is_valid_name`: the merge-time name-plausibility check. -/
def is_valid_name (name : Str) : Bool :=
  if name = [] ∨ name.length < 2 then false
  else
    let name_upper := pyUpper name
    if nameGarbageSubs.any (fun p => containsSub p name_upper) then false
    else if (match name_upper with | c :: _ => c.isDigit | [] => false) then false
    else if (match name_upper.getLast? with | some c => c.isDigit | none => false) then false
    else
      let alpha_count := (name.filter (fun c => c.isAlpha || c = ' ')).length
      if 5 * alpha_count < 4 * name.length then false
      else if 5 < maxConsecAux (pyUpper name) 0 0 then false
      else true

/-- `is_valid_passport_number`: `^[A-Z0-9]{7,9}$` on the uppercased value. -/
def is_valid_passport_number (pn : Str) : Bool :=
  if pn = [] then false
  else
    let u := pyUpper pn
    7 ≤ u.length ∧ u.length ≤ 9 ∧ u.all isUpperAlnum

/-- `choose_name` (the `field_name` argument of the source is only logged). -/
def choose_name (mrz_val text_val : Str) : Str :=
  if mrz_val ≠ [] ∧ is_valid_name mrz_val then mrz_val
  else if mrz_val ≠ [] then mrz_val
  else if text_val ≠ [] ∧ is_valid_name text_val then text_val
  else if mrz_val ≠ [] then mrz_val
  else if text_val ≠ [] then text_val
  else []

/-- `choose_value`. -/
def choose_value (mrz_val text_val : Str) : Str :=
  if mrz_val ≠ [] then mrz_val
  else if text_val ≠ [] then text_val
  else []

/-- `merge_passport_data`: reconcile a Tier-1 and a Tier-2 record. -/
def merge_passport_data : Option PassportData → Option PassportData → Option PassportData
  | none, none => none
  | none, some text_data => some text_data
  | some mrz_data, none => some mrz_data
  | some mrz_data, some text_data =>
    let mrz_pn := mrz_data.passport_number
    let text_pn := text_data.passport_number
    let passport_number :=
      if is_valid_passport_number mrz_pn then mrz_pn
      else if is_valid_passport_number text_pn then text_pn
      else if mrz_pn ≠ [] then mrz_pn else text_pn
    let first_name := choose_name mrz_data.first_name text_data.first_name
    let middle_name := choose_name mrz_data.middle_name text_data.middle_name
    let last_name := choose_name mrz_data.last_name text_data.last_name
    let gender := choose_value mrz_data.gender text_data.gender
    let date_of_birth := choose_value mrz_data.date_of_birth text_data.date_of_birth
    let nationality := choose_value mrz_data.nationality text_data.nationality
    let low :=
      (if first_name = [] then [fnFirstS] else []) ++
      (if last_name = [] then [fnLastS] else []) ++
      (if passport_number = [] then [fnPassS] else []) ++
      (if date_of_birth = [] then [fnDobS] else []) ++
      (if gender = [] then [fnGenderS] else []) ++
      (if nationality = [] then [fnNatS] else [])
    some ⟨first_name, middle_name, last_name, gender, date_of_birth, nationality,
      passport_number, max mrz_data.confidence text_data.confidence, low⟩

end OcrService

namespace OcrService

/-! ## The MRZ line locator (`find_mrz_lines`) -/

/-- Strategy 1's inner loop: best-scored Line-2 after a given Line-1 index
(`adjusted = score − 2·distance`, ties to the earlier line; state starts at
`best_score = best_idx = −1`, no line). -/
def bestLine2Step (line1_idx : Nat) (st : Int × Int × Option Str)
    (cand : Nat × Str × Int) : Int × Int × Option Str :=
  if line1_idx < cand.1 then
    let adjusted : Int := cand.2.2 - ((cand.1 : Int) - (line1_idx : Int)) * 2
    if st.1 < adjusted ∨ (adjusted = st.1 ∧ (cand.1 : Int) < st.2.1)
    then (adjusted, (cand.1 : Int), some cand.2.1) else st
  else st

def bestLine2 (line1_idx : Nat) (cands : List (Nat × Str × Int)) : Option Str :=
  (cands.foldl (bestLine2Step line1_idx)
    ((-1 : Int), (-1 : Int), (none : Option Str))).2.2

/-- Strategy 2's scan over the (at most 9) lines after a partial Line 1:
collect continuation fragments (cleaned length ≥ 5 and strictly more than
70% filler), stop at the first Line-2-shaped line. -/
def scan2 : List Str → List Str × Option Str
  | [] => ([], none)
  | l :: rest =>
    let next_cleaned := cleanLine l
    if next_cleaned = [] then scan2 rest
    else if reMatchTest line2ShapeRE next_cleaned then ([], some (norm44 next_cleaned))
    else if 5 ≤ next_cleaned.length ∧ 7 * next_cleaned.length < 10 * next_cleaned.count '<' then
      let r := scan2 rest
      (next_cleaned :: r.1, r.2)
    else scan2 rest

/-- Stable insertion: place `x` before the first `y` with `le x y`. -/
def insertStable {α : Type} (le : α → α → Bool) (x : α) : List α → List α
  | [] => [x]
  | y :: ys => if le x y then x :: y :: ys else y :: insertStable le x ys

/-- Stable sort by `le` (Python's `sorted` is stable; a stable sort for a
given total preorder is unique, so insertion sort models it exactly). -/
def stableSortBy {α : Type} (le : α → α → Bool) : List α → List α
  | [] => []
  | x :: xs => insertStable le x (stableSortBy le xs)

/-- Strategy 3's backward scan: from the line above the Line-2 candidate,
down to (but excluding) index `line2_idx − 15` (clamped at 0), first line
passing Line-1 validation. -/
def backScan1 (lines : List Str) (line2_idx : Nat) : Option Str :=
  let lo := line2_idx - 15
  ((List.range' (lo + 1) (line2_idx - 1 - lo)).reverse).findSome? (fun i =>
    let cleaned := cleanLine (lines.getD i [])
    if pyStartsWith (toL "P<") cleaned ∧ containsSub (toL "<<") cleaned
        ∧ validate_mrz_line1 cleaned
    then some (norm44 cleaned) else none)

/-- `find_mrz_lines`: locate MRZ line pairs by the three ordered strategies. -/
def find_mrz_lines (text : Str) : List (Str × Str) :=
  let lines := splitChar '\n' text
  let idxLines := lines.enum
  let line1_candidates := idxLines.filterMap (fun il =>
    let cleaned := cleanLine il.2
    if 15 ≤ cleaned.length ∧ pyStartsWith (toL "P<") cleaned ∧ 20 ≤ cleaned.length
        ∧ containsSub (toL "<<") cleaned ∧ validate_mrz_line1 cleaned
    then some (il.1, cleaned) else none)
  let line2_candidates := idxLines.filterMap (fun il =>
    let cleaned := cleanLine il.2
    if 15 ≤ cleaned.length ∧ reMatchTest line2ShapeRE cleaned ∧ 30 ≤ cleaned.length
        ∧ validate_mrz_line2 cleaned
    then some (il.1, cleaned, score_mrz_line2 cleaned) else none)
  let strat1 := line1_candidates.filterMap (fun ic =>
    (bestLine2 ic.1 line2_candidates).map (fun l2 => (norm44 ic.2, norm44 l2)))
  if strat1 ≠ [] then strat1
  else
    let strat2 := idxLines.filterMap (fun il =>
      let cleaned := cleanLine il.2
      if pyStartsWith (toL "P<") cleaned ∧ containsSub (toL "<<") cleaned
          ∧ 15 ≤ cleaned.length ∧ cleaned.length < 44 then
        match scan2 ((lines.drop (il.1 + 1)).take 9) with
        | (parts, some line2) => some (norm44 (cleaned ++ parts.flatten), line2)
        | (_, none) => none
      else none)
    if strat2 ≠ [] then strat2
    else
      let sorted := stableSortBy (fun a b => b.2.2 ≤ a.2.2) line2_candidates
      sorted.filterMap (fun ic =>
        (backScan1 lines ic.1).map (fun l1 => (l1, norm44 ic.2.1)))

end OcrService

namespace OcrService

/-! ## Tier 2: the label-based field extractor (`extract_fields_from_text`) -/

/-- The surname label patterns. -/
def surnamePats : List RE :=
  [ seqList [.bound, lit "SURNAME", .bound],
    seqList [.bound, lit "FAMILY", .star pyWs, lit "NAME", .bound],
    seqList [.bound, lit "LAST", .star pyWs, lit "NAME", .bound],
    seqList [lit "CSAL", .cls (fun c => c = 'A' ∨ c = 'Á'), lit "DI", .star pyWs,
      lit "N", .cls (fun c => c = 'E' ∨ c = 'É'), lit "V"],
    seqList [.bound, lit "NUMELUL", .bound],
    seqList [.bound, lit "1.", .star pyWs, lit "NUMELE", .bound] ]

/-- The given-name label patterns. -/
def givenPats : List RE :=
  [ seqList [.bound, lit "GIVEN", .star pyWs, lit "NAME"],
    seqList [.bound, lit "FIRST", .star pyWs, lit "NAME"],
    seqList [.bound, lit "FORENAME"],
    seqList [.bound, lit "PR", .cls (fun c => c = 'E' ∨ c = 'É'), lit "NOM"],
    seqList [lit "UT", .cls (fun c => c = 'O' ∨ c = 'Ó'), lit "N",
      .cls (fun c => c = 'E' ∨ c = 'É'), lit "V"],
    seqList [.bound, lit "PRENUMELE", .bound],
    seqList [.bound, lit "2.", .star pyWs, lit "PRENUMELE", .bound] ]

/-- The watermark/garbage patterns skipped while scanning for a given name. -/
def garbagePats : List RE :=
  [ .seq .bol (lit "OFISRA"), .seq .bol (lit "FISRA"), .seq .bol (lit "ISRAEL"),
    .seq .bol (lit "STATE"), .seq .bol (lit "SRAE"),
    .seq (lit "ISRAEL") (.cls Char.isDigit),
    .seq .bol (lit "OFISRAB"), .seq .bol (lit "SPRIN"), .seq .bol (lit "SUMA"),
    .seq .bol (lit "MAON"), lit "OFISRAEL",
    seqList [.bol, .rep isUpperAZ 1 3, .cls Char.isDigit, .cls Char.isDigit,
      .star Char.isDigit],
    seqList [.bol, plusCls Char.isDigit, plusCls isUpperAZ, .eol],
    .seq .bol (lit "ROMANEASCA"), .seq .bol (lit "PASAPORT"), .seq .bol (lit "PASSPORT") ]

/-- The separator class `[:\s/]` after a label. -/
def sepLabelCls (c : Char) : Bool := c = ':' || pyWs c || c = '/'

/-- `pattern + r'[:\s/]*(.+)$'`: the same-line value extension of a label. -/
def valueAfterRE (pat : RE) : RE :=
  .seq pat (.seq (.star sepLabelCls) (.seq (.group 1 (plusCls dotCls)) .eol))

/-- `r'^[/\-:,\s]+$'`: pure-separator noise. -/
def noiseRE : RE :=
  seqList [plusCls (fun c => c = '/' || c = '-' || c = ':' || c = ',' || pyWs c), .eol]

/-- `r'^[A-Z0-9\s\-]+$'`. -/
def azNoiseRE : RE :=
  seqList [plusCls (fun c => isUpperAlnum c || pyWs c || c = '-'), .eol]

/-- `find_value_after_label`'s scan of the following lines for a value. -/
def fvalScanAhead (allPats : List RE) : List Str → Option Str
  | [] => none
  | nl :: rest =>
    let next_line := pyStrip nl
    if next_line = [] ∨ next_line.length < 2 then fvalScanAhead allPats rest
    else if allPats.any (fun p => reTest p (pyUpper next_line)) then none
    else if 2 * (next_line.filter Char.isAlpha).length > next_line.length
        ∨ reMatchTest azNoiseRE (pyUpper next_line)
    then some next_line
    else fvalScanAhead allPats rest

/-- `find_value_after_label`'s per-line loop over the label patterns. -/
def fvalPats (allPats : List RE) (lineU : Str) (ahead : List Str) : List RE → Option Str
  | [] => none
  | p :: ps =>
    if reTest p lineU then
      match reSearch (valueAfterRE p) lineU with
      | some caps =>
        let value := pyStrip (capGet 1 caps)
        if value ≠ [] ∧ 1 < value.length ∧ ¬ reMatchTest noiseRE value then some value
        else
          match fvalScanAhead allPats ahead with
          | some v => some v
          | none => fvalPats allPats lineU ahead ps
      | none =>
        match fvalScanAhead allPats ahead with
        | some v => some v
        | none => fvalPats allPats lineU ahead ps
    else fvalPats allPats lineU ahead ps

/-- `find_value_after_label(label_patterns, text_lines, max_lines_ahead)`. -/
def find_value_after_label (pats : List RE) (maxAhead : Nat) : List Str → Str
  | [] => []
  | l :: rest =>
    match fvalPats pats (pyStrip (pyUpper l)) (rest.take maxAhead) pats with
    | some v => v
    | none => find_value_after_label pats maxAhead rest

/-- `r'(?:SURNAME|FAMILY\s*NAME|NOM|NUMELE|/.*)'` with `re.IGNORECASE`. -/
def surnCleanRE : RE :=
  altList [litCI "SURNAME", .seq (litCI "FAMILY") (.seq (.star pyWs) (litCI "NAME")),
    litCI "NOM", litCI "NUMELE", .seq (.cls (fun c => c = '/')) (.star dotCls)]

/-- The surname stop-words. -/
def stop3 : List Str := [toL "OF", toL "THE", toL "AND"]

/-- The surname extraction section. -/
def t2_surname (lines : List Str) : Str :=
  let v := find_value_after_label surnamePats 3 lines
  let v := pyStrip (reSubAll surnCleanRE v)
  let v := v.map (fun c => if c = '-' then ' ' else c)
  let v := pyUpper (pyStrip (v.filter (fun c => c.isAlpha || pyWs c)))
  let v := squeeze v
  if v ≠ [] ∧ containsSub (toL " ") v then
    match (pySplitWs v).filter (fun p => 1 < p.length ∧ ¬ stop3.contains p) with
    | p :: _ => p
    | [] => v
  else v

/-- The inner scan of the given-name section (skip garbage/noise lines,
stop at another label line). -/
def t2_givenInner (allLabelPats : List RE) : List Str → Str
  | [] => []
  | cand :: rest =>
    let candidate := pyStrip cand
    let candidate_upper := pyUpper candidate
    if candidate = [] ∨ candidate.length < 2 then t2_givenInner allLabelPats rest
    else if allLabelPats.any (fun p => reTest p candidate_upper) then []
    else if garbagePats.any (fun p => reTest p candidate_upper) then
      t2_givenInner allLabelPats rest
    else if 10 * (candidate.filter Char.isAlpha).length < 7 * candidate.length then
      t2_givenInner allLabelPats rest
    else candidate

/-- The outer scan of the given-name section: first label line wins. -/
def t2_givenScan : List Str → Str
  | [] => []
  | l :: rest =>
    if givenPats.any (fun p => reTest p (pyStrip (pyUpper l))) then
      t2_givenInner (givenPats ++ surnamePats) (rest.take 14)
    else t2_givenScan rest

/-- `r'(?:GIVEN\s*NAME|FIRST\s*NAME|FORENAME|PRENUMELE|PR[EÉ]NOM|/.*)'`
with `re.IGNORECASE`. -/
def givenCleanRE : RE :=
  altList [.seq (litCI "GIVEN") (.seq (.star pyWs) (litCI "NAME")),
    .seq (litCI "FIRST") (.seq (.star pyWs) (litCI "NAME")),
    litCI "FORENAME", litCI "PRENUMELE",
    .seq (litCI "PR") (.seq (.cls (fun c => c = 'E' ∨ c = 'É' ∨ c = 'e' ∨ c = 'é'))
      (litCI "NOM")),
    .seq (.cls (fun c => c = '/')) (.star dotCls)]

/-- The given-name stop-words (incl. watermark tokens). -/
def stop7 : List Str :=
  [toL "OF", toL "THE", toL "AND", toL "ISRAEL", toL "STATE", toL "FISRAEL", toL "OFISRAEL"]

/-- The given-names extraction section (joined tokens). -/
def t2_given (lines : List Str) : Str :=
  let g := t2_givenScan lines
  let g := pyStrip (reSubAll givenCleanRE g)
  let g := g.map (fun c => if c = '-' then ' ' else c)
  let g := pyUpper (pyStrip (g.filter (fun c => c.isAlpha || pyWs c)))
  let g := squeeze g
  if g ≠ [] then
    joinWith (toL " ") ((pySplitWs g).filter (fun p => 1 < p.length ∧ ¬ stop7.contains p))
  else g

/-- Split the extracted given names into first and middle name. -/
def splitGiven (g : Str) : Str × Str :=
  match pySplitWs g with
  | [] => ([], [])
  | p :: ps => (p, if ps ≠ [] then joinWith (toL " ") ps else [])

end OcrService

namespace OcrService

/-! ## Tier 2: passport number, date of birth, gender, nationality -/

/-- The class `[:\s]`. -/
def colonWs (c : Char) : Bool := c = ':' || pyWs c

/-- The explicit passport-number patterns (group 1 captures the number). -/
def pnPats : List RE :=
  [ seqList [lit "PASSPORT", .star pyWs,
      altList [.seq (lit "NO") (optCls (fun c => c = '.')), lit "NUMBER",
        .cls (fun c => c = '#')],
      .star colonWs, .group 1 (.rep isUpperAlnum 6 12)],
    seqList [lit "DOCUMENT", .star pyWs,
      altList [.seq (lit "NO") (optCls (fun c => c = '.')), lit "NUMBER"],
      .star colonWs, .group 1 (.rep isUpperAlnum 6 12)],
    seqList [.cls (fun c => c = 'Ú' ∨ c = 'U'), lit "TLEV",
      .cls (fun c => c = 'É' ∨ c = 'E'), lit "LSZ",
      .cls (fun c => c = 'Á' ∨ c = 'A'), lit "M",
      .star sepLabelCls, .group 1 (.rep isUpperAlnum 6 12)],
    seqList [lit "NO", optCls (fun c => c = '.'), plusCls pyWs,
      .group 1 (.seq (.rep isUpperAZ 0 2) (.rep Char.isDigit 7 9)), .bound] ]

/-- The passport-number label patterns for the near-label fallback. -/
def ppLabelPats : List RE :=
  [ seqList [.bound, lit "PASSPORT", .star pyWs, lit "NO", .bound],
    seqList [.bound, lit "PASSPORT", .star pyWs, lit "NUMBER", .bound],
    seqList [.cls (fun c => c = 'Ú' ∨ c = 'U'), lit "TLEV",
      .cls (fun c => c = 'É' ∨ c = 'E'), lit "LSZ",
      .cls (fun c => c = 'Á' ∨ c = 'A'), lit "M"] ]

/-- `r'\b([A-Z]{0,2}[0-9]{7,9})\b'`. -/
def ppNumRE : RE :=
  seqList [.bound, .group 1 (.seq (.rep isUpperAZ 0 2) (.rep Char.isDigit 7 9)), .bound]

/-- `r'^[A-Z]{0,2}[0-9]{7,9}$'`. -/
def ppStandaloneRE : RE := seqList [.rep isUpperAZ 0 2, .rep Char.isDigit 7 9, .eol]

/-- `r'\b(\d{8,9})\b'`. -/
def digits89RE : RE := seqList [.bound, .group 1 (.rep Char.isDigit 8 9), .bound]

/-- Scan (label line plus two more) for a 7–9 digit number. -/
def ppScanNum : List Str → Option Str
  | [] => none
  | l :: rest =>
    match reSearch ppNumRE (pyUpper l) with
    | some caps => some (capGet 1 caps)
    | none => ppScanNum rest

/-- The near-label passport-number fallback. -/
def ppNearLabel : List Str → Option Str
  | [] => none
  | l :: rest =>
    if ppLabelPats.any (fun p => reTest p (pyUpper l)) then
      match ppScanNum (l :: rest.take 2) with
      | some v => some v
      | none => ppNearLabel rest
    else ppNearLabel rest

/-- The standalone passport-number fallback. -/
def ppStandalone : List Str → Option Str
  | [] => none
  | l :: rest =>
    let cleaned := (pyUpper l).filter isUpperAlnum
    if reMatchTest ppStandaloneRE cleaned ∧ 7 ≤ cleaned.length then some cleaned
    else ppStandalone rest

/-- The passport-number extraction section. -/
def t2_passport (lines : List Str) (text_upper text : Str) : Str :=
  match pnPats.findSome?
      (fun p => (reSearch p text_upper).map (fun caps => pyStrip (capGet 1 caps))) with
  | some v => v
  | none =>
    match ppNearLabel lines with
    | some v => v
    | none =>
      match ppStandalone lines with
      | some v => v
      | none =>
        match reFindAll digits89RE text with
        | caps :: _ => capGet 1 caps
        | [] => []

/-- The date-of-birth label patterns. -/
def dobLabelPats : List RE :=
  [ seqList [lit "DATE", .star pyWs, lit "OF", .star pyWs, lit "BIRTH"],
    seqList [lit "BIRTH", .star pyWs, lit "DATE"],
    seqList [.bound, lit "DOB", .bound],
    seqList [lit "SZ", .cls (fun c => c = 'Ü' ∨ c = 'U'), lit "LET",
      .cls (fun c => c = 'É' ∨ c = 'E'), lit "SI"],
    seqList [lit "N", .cls (fun c => c = 'É' ∨ c = 'E'), .star pyWs, lit "LE"],
    seqList [lit "DATA", .star pyWs, lit "NA", .cls (fun c => c = 'S' ∨ c = 'Ș'),
      lit "TERII"] ]

/-- `r'(\d{2})[/\-\.](\d{2})[/\-\.](\d{4})'`. -/
def dateSlashRE : RE :=
  seqList [.group 1 (.rep Char.isDigit 2 2), .cls (fun c => c = '/' || c = '-' || c = '.'),
    .group 2 (.rep Char.isDigit 2 2), .cls (fun c => c = '/' || c = '-' || c = '.'),
    .group 3 (.rep Char.isDigit 4 4)]

/-- `r'(\d{1,2})\s*([A-Z]{3})[/\s]*([A-Z]{3})?\s*(\d{2,4})'`. -/
def dateMonRE : RE :=
  seqList [.group 1 (.rep Char.isDigit 1 2), .star pyWs, .group 2 (.rep isUpperAZ 3 3),
    .star (fun c => c = '/' || pyWs c), .alt (.group 3 (.rep isUpperAZ 3 3)) .eps,
    .star pyWs, .group 4 (.rep Char.isDigit 2 4)]

/-- `r'(\d{2})/(\d{2})/(\d{4})'` (the anywhere-in-text fallback). -/
def dateSlashStrictRE : RE :=
  seqList [.group 1 (.rep Char.isDigit 2 2), .cls (fun c => c = '/'),
    .group 2 (.rep Char.isDigit 2 2), .cls (fun c => c = '/'),
    .group 3 (.rep Char.isDigit 4 4)]

/-- The month-abbreviation map. -/
def monthMap : List (Str × Str) :=
  [(toL "JAN", toL "01"), (toL "FEB", toL "02"), (toL "MAR", toL "03"),
   (toL "APR", toL "04"), (toL "MAY", toL "05"), (toL "JUN", toL "06"),
   (toL "JUL", toL "07"), (toL "AUG", toL "08"), (toL "SEP", toL "09"),
   (toL "OCT", toL "10"), (toL "NOV", toL "11"), (toL "DEC", toL "12")]

/-- The labelled date-of-birth scan. -/
def dobLabeled : List Str → Option Str
  | [] => none
  | l :: rest =>
    if dobLabelPats.any (fun p => reTest p (pyUpper l)) then
      let search_text := joinWith (toL " ") (l :: rest.take 2)
      match reSearch dateSlashRE search_text with
      | some caps =>
        some (capGet 1 caps ++ '/' :: (capGet 2 caps ++ '/' :: capGet 3 caps))
      | none =>
        match reSearch dateMonRE (pyUpper search_text) with
        | some caps =>
          let day := capGet 1 caps
          let month_str := capGet 2 caps
          let year := capGet 4 caps
          let month :=
            match monthMap.find? (fun kv => kv.1 = month_str) with
            | some kv => kv.2
            | none => toL "01"
          let year :=
            if year.length = 2 then
              if strToNat year ≤ 30 then toL "20" ++ year else toL "19" ++ year
            else year
          some (zfill2 day ++ '/' :: (month ++ '/' :: year))
        | none => dobLabeled rest
    else dobLabeled rest

/-- The anywhere-in-text DOB fallback (birth-year plausibility 1940–2020). -/
def dobAnywhereAux : List Caps → Str
  | [] => []
  | caps :: rest =>
    let year := capGet 3 caps
    if 1940 < strToNat year ∧ strToNat year < 2020 then
      capGet 1 caps ++ '/' :: (capGet 2 caps ++ '/' :: year)
    else dobAnywhereAux rest

/-- The date-of-birth extraction section. -/
def t2_dob (lines : List Str) (text : Str) : Str :=
  match dobLabeled lines with
  | some d => d
  | none => dobAnywhereAux (reFindAll dateSlashStrictRE text)

end OcrService

namespace OcrService

/-! ## Tier 2: gender and nationality, and the extractor's assembly -/

/-- `r'\bSEX\b|\bGENDER\b|\bNEM\b|\bSEXE\b|\bSEXUARE\b'`. -/
def sexLabelRE : RE :=
  altList [seqList [.bound, lit "SEX", .bound], seqList [.bound, lit "GENDER", .bound],
    seqList [.bound, lit "NEM", .bound], seqList [.bound, lit "SEXE", .bound],
    seqList [.bound, lit "SEXUARE", .bound]]

/-- The class `[/\s]`. -/
def slashWs (c : Char) : Bool := c = '/' || pyWs c

/-- The class `[MF]`. -/
def isMF (c : Char) : Bool := c = 'M' || c = 'F'

/-- Branch `[/\s]([MF])[/\s]` of the same-line sex regex. -/
def gsl1 : Str → Option Char
  | a :: b :: c :: _ => if slashWs a ∧ isMF b ∧ slashWs c then some b else none
  | _ => none

/-- Branch `[/\s]([MF])$`. -/
def gsl2 : Str → Option Char
  | [a, b] => if slashWs a ∧ isMF b then some b else none
  | _ => none

/-- Branch `^([MF])[/\s]` (`^` anchors at the string start). -/
def gsl3 (prev : Option Char) : Str → Option Char
  | a :: b :: _ => if prev = none ∧ isMF a ∧ slashWs b then some a else none
  | _ => none

/-- Branch `\b([MF])\b`. -/
def gsl4 (prev : Option Char) : Str → Option Char
  | s@(a :: rest) =>
    if isBoundary prev s ∧ isMF a ∧ isBoundary (some a) rest then some a else none
  | _ => none

/-- `re.search(r'[/\s]([MF])[/\s]|[/\s]([MF])$|^([MF])[/\s]|\b([MF])\b', line)`
followed by picking the set group: each alternative captures exactly the
matched `M`/`F`, so the scan returns that character directly. -/
def genderSLScan (prev : Option Char) (s : Str) : Option Char :=
  match gsl1 s with
  | some g => some g
  | none =>
  match gsl2 s with
  | some g => some g
  | none =>
  match gsl3 prev s with
  | some g => some g
  | none =>
  match gsl4 prev s with
  | some g => some g
  | none =>
    match s with
    | [] => none
    | c :: rest => genderSLScan (some c) rest

/-- `re.search(r'^([MF])[/\s]|[/\s]([MF])$', line)` with its captured char. -/
def genderNLScan (prev : Option Char) (s : Str) : Option Char :=
  match gsl3 prev s with
  | some g => some g
  | none =>
  match gsl2 s with
  | some g => some g
  | none =>
    match s with
    | [] => none
    | c :: rest => genderNLScan (some c) rest

/-- The scan of the (at most 3) lines after a sex/gender label. -/
def genderNextLines : List Str → Option Char
  | [] => none
  | nl :: rest =>
    let next_line := pyStrip nl
    let next_upper := pyUpper next_line
    if next_line = [] then genderNextLines rest
    else if next_upper = toL "M" then some 'M'
    else if next_upper = toL "F" then some 'F'
    else if next_upper = toL "MALE" then some 'M'
    else if next_upper = toL "FEMALE" then some 'F'
    else
      match genderNLScan none next_upper with
      | some g => some g
      | none => genderNextLines rest

/-- The labelled gender scan. -/
def genderLabeled : List Str → Option Char
  | [] => none
  | l :: rest =>
    let line_upper := pyUpper l
    if reTest sexLabelRE line_upper then
      match genderSLScan none line_upper with
      | some g => some g
      | none =>
        match genderNextLines (rest.take 3) with
        | some g => some g
        | none => genderLabeled rest
    else genderLabeled rest

/-- `r'\bF\s*/\s*M\b'`. -/
def fmSlashRE : RE :=
  seqList [.bound, .cls (fun c => c = 'F'), .star pyWs, .cls (fun c => c = '/'),
    .star pyWs, .cls (fun c => c = 'M'), .bound]

/-- `r'\bM\s*/\s*F\b'`. -/
def mfSlashRE : RE :=
  seqList [.bound, .cls (fun c => c = 'M'), .star pyWs, .cls (fun c => c = '/'),
    .star pyWs, .cls (fun c => c = 'F'), .bound]

/-- `r'\bMALE\b'`. -/
def maleRE : RE := seqList [.bound, lit "MALE", .bound]

/-- `r'\bFEMALE\b'`. -/
def femaleRE : RE := seqList [.bound, lit "FEMALE", .bound]

/-- The Hebrew male indicators. -/
def hebrewMale (text : Str) : Bool :=
  containsSub (toL "זכר") text || containsSub (toL " ז") text || containsSub (toL "/ז") text

/-- The Hebrew female indicators. -/
def hebrewFemale (text : Str) : Bool :=
  containsSub (toL "נקבה") text || containsSub (toL " נ") text || containsSub (toL "/נ") text

/-- The gender extraction section. -/
def t2_gender (lines : List Str) (text_upper text : Str) : Str :=
  match genderLabeled lines with
  | some g => [g]
  | none =>
    if reTest fmSlashRE text_upper then toL "F"
    else if reTest mfSlashRE text_upper then toL "M"
    else if reTest maleRE text_upper ∧ ¬ reTest femaleRE text_upper then toL "M"
    else if reTest femaleRE text_upper then toL "F"
    else if hebrewMale text then toL "M"
    else if hebrewFemale text then toL "F"
    else []

/-- The country-name/demonym table (insertion order preserved). -/
def country_codes : List (Str × Str) :=
  [(toL "HUNGARIAN", toL "HUN"), (toL "HUNGARY", toL "HUN"), (toL "MAGYAR", toL "HUN"),
   (toL "ISRAELI", toL "ISR"), (toL "ISRAEL", toL "ISR"),
   (toL "AMERICAN", toL "USA"), (toL "UNITED STATES", toL "USA"),
   (toL "BRITISH", toL "GBR"), (toL "UNITED KINGDOM", toL "GBR"),
   (toL "GERMAN", toL "DEU"), (toL "GERMANY", toL "DEU"),
   (toL "FRENCH", toL "FRA"), (toL "FRANCE", toL "FRA"),
   (toL "ITALIAN", toL "ITA"), (toL "ITALY", toL "ITA"),
   (toL "SPANISH", toL "ESP"), (toL "SPAIN", toL "ESP"),
   (toL "CANADIAN", toL "CAN"), (toL "CANADA", toL "CAN"),
   (toL "AUSTRALIAN", toL "AUS"), (toL "AUSTRALIA", toL "AUS"),
   (toL "ROMANIAN", toL "ROU"), (toL "ROMANIA", toL "ROU"), (toL "ROMANA", toL "ROU"),
   (toL "POLISH", toL "POL"), (toL "POLAND", toL "POL"),
   (toL "UKRAINIAN", toL "UKR"), (toL "UKRAINE", toL "UKR"),
   (toL "RUSSIAN", toL "RUS"), (toL "RUSSIA", toL "RUS"),
   (toL "MOLDOVAN", toL "MDA"), (toL "MOLDOVA", toL "MDA")]

/-- `r'\bNATIONALITY\b|\bCITIZENSHIP\b|\bÁLLAMPOLGÁRSÁG\b'`. -/
def natLabelRE : RE :=
  altList [seqList [.bound, lit "NATIONALITY", .bound],
    seqList [.bound, lit "CITIZENSHIP", .bound],
    seqList [.bound, lit "ÁLLAMPOLGÁRSÁG", .bound]]

/-- `r'\b(HUN|ISR|USA|GBR|DEU|FRA|ITA|ESP|CAN|AUS|ROU|POL|UKR|RUS|MDA)\b'`. -/
def natCodeRE : RE :=
  seqList [.bound,
    .group 1 (altList (["HUN", "ISR", "USA", "GBR", "DEU", "FRA", "ITA", "ESP", "CAN",
      "AUS", "ROU", "POL", "UKR", "RUS", "MDA"].map lit)),
    .bound]

/-- First table entry whose country name occurs in the string. -/
def countryIn (s : Str) : Option Str :=
  country_codes.findSome? (fun kv => if containsSub kv.1 s then some kv.2 else none)

/-- The labelled nationality scan. -/
def natLabeled : List Str → Option Str
  | [] => none
  | l :: rest =>
    let line_upper := pyUpper l
    if reTest natLabelRE line_upper then
      match countryIn line_upper with
      | some code => some code
      | none =>
        match rest with
        | nl :: _ =>
          (match countryIn (pyStrip (pyUpper nl)) with
           | some code => some code
           | none => natLabeled rest)
        | [] => natLabeled rest
    else natLabeled rest

/-- The nationality extraction section. -/
def t2_nationality (lines : List Str) (text_upper : Str) : Str :=
  match natLabeled lines with
  | some n => n
  | none =>
    match reSearch natCodeRE text_upper with
    | some caps => capGet 1 caps
    | none =>
      match countryIn text_upper with
      | some code => code
      | none => []

/-- The extractor's BUILD RESULT step: flag every missing field, return the
record iff surname, first name or passport number was found. -/
def buildTier2 (last_name first_name middle_name passport_num dob gender nationality : Str) :
    Option PassportData :=
  let low :=
    (if last_name = [] then [fnLastS] else []) ++
    (if first_name = [] then [fnFirstS] else []) ++
    (if passport_num = [] then [fnPassS] else []) ++
    (if dob = [] then [fnDobS] else []) ++
    (if gender = [] then [fnGenderS] else []) ++
    (if nationality = [] then [fnNatS] else [])
  if last_name ≠ [] ∨ first_name ≠ [] ∨ passport_num ≠ [] then
    some ⟨first_name, middle_name, last_name, gender, dob, nationality, passport_num,
      if low.length ≤ 2 then 50 else 30, low.dedup⟩
  else none

/-- The extractor's non-empty stripped lines. -/
def t2_lines (text : Str) : List Str :=
  ((splitChar '\n' text).map pyStrip).filter (fun l => l ≠ [])

/-- `extract_fields_from_text`: the Tier-2 label-based extractor. -/
def extract_fields_from_text (text : Str) : Option PassportData :=
  let lines := t2_lines text
  let text_upper := pyUpper text
  let last_name := t2_surname lines
  let given_names := t2_given lines
  let fm := splitGiven given_names
  let passport_num := t2_passport lines text_upper text
  let dob := t2_dob lines text
  let gender := t2_gender lines text_upper text
  let nationality := t2_nationality lines text_upper
  buildTier2 last_name fm.1 fm.2 passport_num dob gender nationality

end OcrService

namespace OcrService

/-! ## Statement vocabulary and concrete inputs used by the theorems -/

/-- Modelled from the spec's words (refinement comparison for the merge's
name selection): first non-empty value, MRZ preferred. -/
def chooseNameSimple (m t : Str) : Str := if m = [] then t else m

/-- A record satisfies flag consistency: each of the six fields is empty
iff its name is flagged. -/
def emptyIffFlagged (r : PassportData) : Prop :=
  ((r.first_name = []) ↔ fnFirstS ∈ r.low_confidence_fields) ∧
  ((r.last_name = []) ↔ fnLastS ∈ r.low_confidence_fields) ∧
  ((r.passport_number = []) ↔ fnPassS ∈ r.low_confidence_fields) ∧
  ((r.date_of_birth = []) ↔ fnDobS ∈ r.low_confidence_fields) ∧
  ((r.gender = []) ↔ fnGenderS ∈ r.low_confidence_fields) ∧
  ((r.nationality = []) ↔ fnNatS ∈ r.low_confidence_fields)

/-- The weaker direction that holds of Tier-1 records: every empty field is
flagged (a flagged field may still carry a raw, structurally invalid value). -/
def emptyImpliesFlagged (r : PassportData) : Prop :=
  ((r.first_name = []) → fnFirstS ∈ r.low_confidence_fields) ∧
  ((r.last_name = []) → fnLastS ∈ r.low_confidence_fields) ∧
  ((r.passport_number = []) → fnPassS ∈ r.low_confidence_fields) ∧
  ((r.date_of_birth = []) → fnDobS ∈ r.low_confidence_fields) ∧
  ((r.gender = []) → fnGenderS ∈ r.low_confidence_fields) ∧
  ((r.nationality = []) → fnNatS ∈ r.low_confidence_fields)

/-- Zero-padded two-digit decimal encoding (the claims' `YYMMDD` builder). -/
def encode2 (n : Nat) : Str :=
  if n < 10 then ['0', Nat.digitChar n] else [Nat.digitChar (n / 10), Nat.digitChar (n % 10)]

/-- The spec's Line-1 literal. -/
def c3L1 : Str := toL "P<UTOROTARI<DOANI<<OLGA<<<<<<<<<<<<<<<<<<<<"

/-- The spec's Line-2 literal (sex letter `F` sits at offset 21; offset 20
holds `'1'`). -/
def c3L2 : Str := toL "12345678<9UTO850615<1F300101<<<<<<<<<<<<<02"

/-- The record decoded from the spec's literal pair. -/
def c3Rec : PassportData := parse_mrz_manual (norm44 c3L1) (norm44 c3L2)

/-- A Line 2 whose date-of-birth field `859915` has month 99. -/
def c1L2bad : Str := toL "12345678<9UTO859915<1F300101<<<<<<<<<<<<<02"

/-- A Tier-1 record with a non-empty but flagged date of birth. -/
def c1Rec : PassportData := parse_mrz_manual (norm44 c3L1) (norm44 c1L2bad)

/-- Length 30; matches the claim's 19-char Line-2 shape but has `'A'` at
offset 19. -/
def c2Line : Str := toL "1234567890UTO850615AZZZZZZZZZZ"

/-- A cleaned line with exactly 70% filler (7 of 10 chars). -/
def c9Frag : Str := toL "ABC<<<<<<<"

/-- A partial MRZ Line 1 (17 cleaned chars). -/
def c9Partial : Str := toL "P<UTOROTARI<<OLGA"

/-- A page whose MRZ pair is found by split-line reconstruction, with an
exactly-70%-filler line between the partial Line 1 and Line 2. -/
def c9Text : Str :=
  c9Partial ++ '\n' :: (c9Frag ++ '\n' :: c3L2)

/-- A page with a surname, a given name, and both MALE and FEMALE keywords. -/
def tGender : Str := toL "SURNAME\nKOVACS\nGIVEN NAME\nMILAN\nMALE and FEMALE here"

/-- The record Tier 2 extracts from `tGender`. -/
def recGender : PassportData :=
  ⟨toL "MILAN", [], toL "KOVACS", toL "F", [], [], [], 30, [fnPassS, fnDobS, fnNatS]⟩

end OcrService

namespace OcrService

/-! ## Helper lemmas -/

/-- Two-digit round trip: padding then parsing is the identity below 100. -/
theorem encode2_spec : ∀ n < 100, (encode2 n).length = 2
    ∧ (∀ c ∈ encode2 n, c.isDigit) ∧ strToNat (encode2 n) = n := by decide

/-- `choose_name` returns the MRZ value whenever it is non-empty. -/
theorem choose_name_of_mrz_nonempty (m t : Str) (h : m ≠ []) : choose_name m t = m := by
  unfold choose_name
  split_ifs <;> simp_all

/-- `buildTier2` returns `none` exactly when surname, first name and
passport number are all empty. -/
theorem buildTier2_none_iff (a b c d e f g : Str) :
    buildTier2 a b c d e f g = none ↔ (a = [] ∧ b = [] ∧ d = []) := by
  unfold buildTier2
  by_cases h : a ≠ [] ∨ b ≠ [] ∨ d ≠ []
  · simp only [if_pos h, reduceCtorEq, false_iff]
    tauto
  · simp only [if_neg h]
    push_neg at h
    simp only [true_iff]
    tauto

/-! ## The claims -/

/-- C3, counterexample: decoding the spec's literal MRZ pair with
`parse_mrz_manual` yields an empty `gender`, not `"F"` — offset 20 of the
Line-2 literal holds `'1'`; the `F` sits at offset 21. -/
theorem c3_gender_counterexample : c3Rec.gender ≠ toL "F" ∧ c3Rec.gender = [] := by decide

/-- C3, amended: decoding the literal pair yields
`last_name = "ROTARI DOANI"`, `first_name = "OLGA"`,
`date_of_birth = "15/06/1985"`, `nationality = "UTO"`,
`passport_number = "12345678"`, and the empty string (flagged) for
`gender`, because the literal's sex letter is out of position. -/
theorem c3_literal_decode :
    c3Rec.last_name = toL "ROTARI DOANI" ∧ c3Rec.first_name = toL "OLGA" ∧
    c3Rec.gender = [] ∧ c3Rec.date_of_birth = toL "15/06/1985" ∧
    c3Rec.nationality = toL "UTO" ∧ c3Rec.passport_number = toL "12345678" ∧
    c3Rec.low_confidence_fields = [fnGenderS] := by decide

/-- C5: in a both-present merge, every non-empty MRZ name field survives
into the merged record unchanged, whatever the text value is. -/
theorem merge_name_mrz_priority (mrz text m : PassportData)
    (h : merge_passport_data (some mrz) (some text) = some m) :
    (mrz.first_name ≠ [] → m.first_name = mrz.first_name) ∧
    (mrz.last_name ≠ [] → m.last_name = mrz.last_name) ∧
    (mrz.middle_name ≠ [] → m.middle_name = mrz.middle_name) := by
  simp only [merge_passport_data, Option.some.injEq] at h
  subst h
  refine ⟨fun h1 => ?_, fun h2 => ?_, fun h3 => ?_⟩
  · exact choose_name_of_mrz_nonempty _ _ h1
  · exact choose_name_of_mrz_nonempty _ _ h2
  · exact choose_name_of_mrz_nonempty _ _ h3

/-- C5, witness. -/
theorem merge_name_mrz_priority_witness :
    c3Rec.first_name ≠ [] ∧
    ((merge_passport_data (some c3Rec) (some recGender)).getD
        ⟨[], [], [], [], [], [], [], 0, []⟩).first_name = c3Rec.first_name := by
  have h := merge_name_mrz_priority c3Rec recGender
    ((merge_passport_data (some c3Rec) (some recGender)).getD
      ⟨[], [], [], [], [], [], [], 0, []⟩) (by decide)
  exact ⟨by decide, h.1 (by decide)⟩

/-- C10: `choose_name` is extensionally "first non-empty, MRZ preferred":
the `is_valid_name` plausibility check never changes the result. -/
theorem choose_name_eq_simple (m t : Str) : choose_name m t = chooseNameSimple m t := by
  unfold choose_name chooseNameSimple
  split_ifs <;> simp_all

/-- C6: the Tier-2 extractor returns `None` exactly when the extracted
surname, first name and passport number are all empty. -/
theorem extract_none_iff (t : Str) :
    extract_fields_from_text t = none ↔
      (t2_surname (t2_lines t) = [] ∧ (splitGiven (t2_given (t2_lines t))).1 = []
        ∧ t2_passport (t2_lines t) (pyUpper t) t = []) := by
  simp only [extract_fields_from_text]
  exact buildTier2_none_iff _ _ _ _ _ _ _

end OcrService

namespace OcrService

/-- `format_date` on an all-digit six-char input reduces to the range check
and positional reassembly. -/
theorem format_date_of_six_digits (s : Str) (h6 : s.length = 6) (hd : ∀ c ∈ s, c.isDigit) :
    format_date s =
      if 1 ≤ strToNat (s.drop 4) ∧ strToNat (s.drop 4) ≤ 31
          ∧ 1 ≤ strToNat ((s.drop 2).take 2) ∧ strToNat ((s.drop 2).take 2) ≤ 12 then
        (s.drop 4 ++ '/' :: ((s.drop 2).take 2 ++ '/' ::
          (if strToNat (s.take 2) ≤ 30 then '2' :: '0' :: s.take 2
           else '1' :: '9' :: s.take 2)), true)
      else (s, false) := by
  have hne : s ≠ [] := by
    intro h0
    rw [h0] at h6
    simp at h6
  have htake : s.take 6 = s := List.take_of_length_le (le_of_eq h6)
  have hfilter : s.filter Char.isDigit = s := List.filter_eq_self.mpr hd
  simp only [format_date, htake, hfilter, h6]
  rw [if_neg (by simp [hne, h6])]
  simp

end OcrService

namespace OcrService

/-- C4: round-trip date-of-birth decoding.  Every in-range `(dd, mm, yy)`
encoded as zero-padded `YYMMDD` decodes to `DD/MM/YYYY` with the 30-year
pivot (`YY ≤ 30 → 20YY`, else `19YY`); every six-digit input whose day or
month is out of range is returned unchanged with `False`. -/
theorem format_date_roundtrip :
    (∀ dd mm yy : Nat, 1 ≤ dd → dd ≤ 31 → 1 ≤ mm → mm ≤ 12 → yy ≤ 99 →
      format_date (encode2 yy ++ encode2 mm ++ encode2 dd)
        = (encode2 dd ++ '/' :: (encode2 mm ++ '/' ::
            (if yy ≤ 30 then toL "20" ++ encode2 yy else toL "19" ++ encode2 yy)), true))
    ∧ (∀ s : Str, s.length = 6 → (∀ c ∈ s, c.isDigit) →
        (strToNat (s.drop 4) < 1 ∨ 31 < strToNat (s.drop 4) ∨
          strToNat ((s.drop 2).take 2) < 1 ∨ 12 < strToNat ((s.drop 2).take 2)) →
        format_date s = (s, false)) := by
  constructor
  · intro dd mm yy h1 h2 h3 h4 h5
    obtain ⟨lyy, dyy, nyy⟩ := encode2_spec yy (by omega)
    obtain ⟨lmm, dmm, nmm⟩ := encode2_spec mm (by omega)
    obtain ⟨ldd, ddd, ndd⟩ := encode2_spec dd (by omega)
    have hlen : (encode2 yy ++ encode2 mm ++ encode2 dd).length = 6 := by
      simp [lyy, lmm, ldd]
    have hdig : ∀ c ∈ encode2 yy ++ encode2 mm ++ encode2 dd, c.isDigit := by
      intro c hc
      simp only [List.mem_append] at hc
      rcases hc with (h | h) | h
      · exact dyy c h
      · exact dmm c h
      · exact ddd c h
    have hyy : (encode2 yy ++ encode2 mm ++ encode2 dd).take 2 = encode2 yy := by
      rw [List.append_assoc]
      exact List.take_left' lyy
    have hdrop2 : (encode2 yy ++ encode2 mm ++ encode2 dd).drop 2
        = encode2 mm ++ encode2 dd := by
      rw [List.append_assoc]
      exact List.drop_left' lyy
    have hmm2 : ((encode2 yy ++ encode2 mm ++ encode2 dd).drop 2).take 2 = encode2 mm := by
      rw [hdrop2]
      exact List.take_left' lmm
    have hdd2 : (encode2 yy ++ encode2 mm ++ encode2 dd).drop 4 = encode2 dd := by
      have h24 : (encode2 yy ++ encode2 mm ++ encode2 dd).drop 4
          = ((encode2 yy ++ encode2 mm ++ encode2 dd).drop 2).drop 2 := by
        rw [List.drop_drop]
      rw [h24, hdrop2]
      exact List.drop_left' lmm
    rw [format_date_of_six_digits _ hlen hdig, hyy, hmm2, hdd2, nyy, nmm, ndd,
      if_pos (by omega)]
    rfl
  · intro s h6 hd hout
    rw [format_date_of_six_digits s h6 hd, if_neg (by omega)]


/-- C4, witness. -/
theorem format_date_roundtrip_witness :
    format_date (encode2 85 ++ encode2 6 ++ encode2 15) = (toL "15/06/1985", true)
    ∧ format_date (toL "859915") = (toL "859915", false) := by
  constructor
  · have h := format_date_roundtrip.1 15 6 85 (by decide) (by decide) (by decide)
      (by decide) (by decide)
    exact h.trans (by decide)
  · exact format_date_roundtrip.2 (toL "859915") (by decide) (by decide) (by decide)

end OcrService

namespace OcrService

/-- Membership in a conditional singleton flag list. -/
theorem mem_flagIte (x a : Str) (c : Prop) [Decidable c] :
    x ∈ (if c then [a] else ([] : List Str)) ↔ (c ∧ x = a) := by
  split_ifs with h <;> simp [h]

/-- Flag consistency follows from a membership characterization of the flag list. -/
theorem emptyIffFlagged_of_mem (r : PassportData)
    (h : ∀ x, x ∈ r.low_confidence_fields ↔
      ((r.first_name = [] ∧ x = fnFirstS) ∨ (r.last_name = [] ∧ x = fnLastS) ∨
       (r.passport_number = [] ∧ x = fnPassS) ∨ (r.date_of_birth = [] ∧ x = fnDobS) ∨
       (r.gender = [] ∧ x = fnGenderS) ∨ (r.nationality = [] ∧ x = fnNatS))) :
    emptyIffFlagged r := by
  unfold emptyIffFlagged
  refine ⟨?_, ?_, ?_, ?_, ?_, ?_⟩ <;> rw [h] <;>
    exact ⟨fun he => by tauto,
      fun hm => by
        rcases hm with ⟨h1, hn⟩ | ⟨h1, hn⟩ | ⟨h1, hn⟩ | ⟨h1, hn⟩ | ⟨h1, hn⟩ | ⟨h1, hn⟩ <;>
          first
            | exact h1
            | exact absurd hn (by decide)⟩

/-- A record whose flags are recomputed from its own emptiness (merge order) is flag-consistent. -/
theorem record_flags_emptyIffFlagged (F M L G D N P : Str) (conf : Nat) :
    emptyIffFlagged ⟨F, M, L, G, D, N, P, conf,
      (if F = [] then [fnFirstS] else []) ++ (if L = [] then [fnLastS] else []) ++
      (if P = [] then [fnPassS] else []) ++ (if D = [] then [fnDobS] else []) ++
      (if G = [] then [fnGenderS] else []) ++ (if N = [] then [fnNatS] else [])⟩ := by
  apply emptyIffFlagged_of_mem
  intro x
  dsimp only
  simp only [List.mem_append, mem_flagIte]
  tauto

/-- The deduplicated Tier-2 flag recomputation is flag-consistent. -/
theorem record_flags_dedup_emptyIffFlagged (F M L G D N P : Str) (conf : Nat) :
    emptyIffFlagged ⟨F, M, L, G, D, N, P, conf,
      ((if L = [] then [fnLastS] else []) ++ (if F = [] then [fnFirstS] else []) ++
       (if P = [] then [fnPassS] else []) ++ (if D = [] then [fnDobS] else []) ++
       (if G = [] then [fnGenderS] else []) ++ (if N = [] then [fnNatS] else [])).dedup⟩ := by
  apply emptyIffFlagged_of_mem
  intro x
  dsimp only
  simp only [List.mem_dedup, List.mem_append, mem_flagIte]
  tauto

/-- A both-present merge recomputes `low_confidence_fields` from the merged record's emptiness. -/
theorem merge_both_emptyIffFlagged (a b m : PassportData)
    (h : merge_passport_data (some a) (some b) = some m) : emptyIffFlagged m := by
  simp only [merge_passport_data, Option.some.injEq] at h
  rw [← h]
  exact record_flags_emptyIffFlagged _ _ _ _ _ _ _ _

/-- Every record built by the Tier-2 BUILD RESULT step is flag-consistent. -/
theorem buildTier2_emptyIffFlagged (a b c d e f g : Str) (r : PassportData)
    (h : buildTier2 a b c d e f g = some r) : emptyIffFlagged r := by
  unfold buildTier2 at h
  by_cases hg : a ≠ [] ∨ b ≠ [] ∨ d ≠ []
  · rw [if_pos hg, Option.some.injEq] at h
    rw [← h]
    exact record_flags_dedup_emptyIffFlagged _ _ _ _ _ _ _ _
  · rw [if_neg hg] at h
    exact absurd h (by simp)

end OcrService

namespace OcrService

/-- An empty cleaned passport number is always invalid. -/
theorem clean_passport_number_empty (x : Str) :
    (clean_passport_number x).1 = [] → (clean_passport_number x).2 = false := by
  unfold clean_passport_number
  split_ifs with h
  · intro _; rfl
  · intro he
    dsimp only at he ⊢
    rw [he]
    decide

/-- An empty cleaned country code is always invalid. -/
theorem clean_country_code_empty (x : Str) :
    (clean_country_code x).1 = [] → (clean_country_code x).2 = false := by
  unfold clean_country_code
  intro he
  dsimp only at he ⊢
  rw [he]
  decide

/-- `format_date` never reports success with an empty result. -/
theorem format_date_empty_flag (x : Str) :
    (format_date x).1 = [] → (format_date x).2 = false := by
  simp only [format_date]
  split_ifs <;> intro he <;> first | rfl | exact absurd he (by simp)

/-- An empty first name out of the name-section parser is always flagged. -/
theorem parse_names_first_flag (ns : Str) :
    (parse_mrz_names ns).1 = [] → fnFirstS ∈ (parse_mrz_names ns).2.2.2 := by
  simp only [parse_mrz_names]
  split_ifs with h0
  · intro _; decide
  · split
    · intro _; decide
    · split
      · intro _
        simp [List.mem_append]
      · split
        · intro _
          simp [List.mem_append]
        · rename_i g0 gs hg
          intro hfe
          exfalso
          have hmem : g0 ∈ g0 :: gs := List.mem_cons_self g0 gs
          rw [← hg] at hmem
          have hpred := List.of_mem_filter hmem
          have hne : g0 ≠ [] := (of_decide_eq_true hpred).1
          dsimp only at hfe
          cases g0 with
          | nil => exact hne rfl
          | cons c cs => simp [pyUpper] at hfe

end OcrService

namespace OcrService

/-- An empty last name out of the name-section parser is always flagged. -/
theorem parse_names_last_flag (ns : Str) :
    (parse_mrz_names ns).2.2.1 = [] → fnLastS ∈ (parse_mrz_names ns).2.2.2 := by
  simp only [parse_mrz_names]
  split_ifs with h0
  · intro _; decide
  · split
    · intro _; decide
    · split
      · intro hle
        dsimp only at hle ⊢
        rw [hle]
        simp [List.mem_append]
      · split
        · intro hle
          dsimp only at hle ⊢
          rw [hle]
          simp [List.mem_append]
        · intro hle
          dsimp only at hle ⊢
          rw [hle]
          simp [List.mem_append]

/-- In a Tier-1 record every empty field is flagged. -/
theorem parse_manual_emptyImpliesFlagged (l1 l2 : Str) :
    emptyImpliesFlagged (parse_mrz_manual l1 l2) := by
  simp only [parse_mrz_manual]
  unfold emptyImpliesFlagged
  dsimp only
  refine ⟨?_, ?_, ?_, ?_, ?_, ?_⟩
  · intro h
    have hf := parse_names_first_flag _ h
    simp only [List.mem_dedup, List.mem_append]
    tauto
  · intro h
    have hf := parse_names_last_flag _ h
    simp only [List.mem_dedup, List.mem_append]
    tauto
  · intro h
    have hf := clean_passport_number_empty _ h
    simp [List.mem_dedup, List.mem_append, hf]
  · intro h
    have hf := format_date_empty_flag _ h
    simp [List.mem_dedup, List.mem_append, hf]
  · intro h
    rw [List.mem_dedup]
    simp only [List.mem_append, h]
    simp
  · intro h
    have hf := clean_country_code_empty _ h
    simp [List.mem_dedup, List.mem_append, hf]

end OcrService

namespace OcrService

/-- C1, amended: flag consistency.  Every record produced by a both-present
merge, and every Tier-2 record, has each of the six fields empty iff its
name is in `low_confidence_fields`.  For a Tier-1 (`parse_mrz_manual`)
record — which the engine returns unchanged when the text tier produced
nothing — only the forward direction holds: every empty field is flagged,
but a flagged field may carry a non-empty, structurally invalid raw value. -/
theorem flag_consistency :
    (∀ a b m : PassportData, merge_passport_data (some a) (some b) = some m →
      emptyIffFlagged m) ∧
    (∀ t : Str, ∀ d : PassportData, extract_fields_from_text t = some d →
      emptyIffFlagged d) ∧
    (∀ l1 l2 : Str, emptyImpliesFlagged (parse_mrz_manual l1 l2)) := by
  refine ⟨merge_both_emptyIffFlagged, ?_, parse_manual_emptyImpliesFlagged⟩
  intro t d h
  simp only [extract_fields_from_text] at h
  exact buildTier2_emptyIffFlagged _ _ _ _ _ _ _ _ h

/-- C1, counterexample: a Tier-1 record whose Line-2 date-of-birth field
is `859915` (month 99) keeps the raw value `"859915"` in `date_of_birth`
and flags it; the engine returns the record unchanged when the text tier
produced nothing, so this output record has a non-empty field whose name
is in `low_confidence_fields`. -/
theorem flag_consistency_counterexample :
    merge_passport_data (some c1Rec) none = some c1Rec ∧
    c1Rec.date_of_birth ≠ [] ∧ fnDobS ∈ c1Rec.low_confidence_fields :=
  ⟨rfl, by decide, by decide⟩

/-- C1, witness: the amended theorem applied to concrete records of all
three kinds. -/
theorem flag_consistency_witness :
    emptyIffFlagged ((merge_passport_data (some c3Rec) (some recGender)).getD
      ⟨[], [], [], [], [], [], [], 0, []⟩) ∧
    emptyIffFlagged recGender ∧ emptyImpliesFlagged c3Rec :=
  ⟨flag_consistency.1 c3Rec recGender _ (by decide),
   flag_consistency.2.1 tGender recGender (by decide),
   flag_consistency.2.2 (norm44 c3L1) (norm44 c3L2)⟩

end OcrService

namespace OcrService

/-- C9, amended: in split-line reconstruction the Line-1 continuation
fragments collected from the scanned window are exactly the cleaned lines
before the first Line-2-shaped line whose cleaned length is at least 5 and
whose filler share is strictly greater than 70% (`10·count('<') > 7·len`);
`find_mrz_lines` applies this scan to at most 9 lines after the partial
Line 1. -/
theorem scan2_characterization (w : List Str) :
    (scan2 w).1 =
      ((w.map cleanLine).takeWhile (fun c => !(reMatchTest line2ShapeRE c))).filter
        (fun c => 5 ≤ c.length ∧ 7 * c.length < 10 * c.count '<') := by
  induction w with
  | nil => rfl
  | cons l rest ih =>
    simp only [scan2, List.map_cons, List.takeWhile_cons]
    by_cases h0 : cleanLine l = []
    · have ht : reMatchTest line2ShapeRE (cleanLine l) = false := by rw [h0]; decide
      rw [if_pos h0, ht]
      simp only [Bool.not_false, if_true]
      rw [List.filter_cons_of_neg (by rw [h0]; decide)]
      exact ih
    · rw [if_neg h0]
      by_cases h1 : reMatchTest line2ShapeRE (cleanLine l) = true
      · rw [if_pos h1, h1]
        simp
      · have h1' : reMatchTest line2ShapeRE (cleanLine l) = false := by
          revert h1; cases reMatchTest line2ShapeRE (cleanLine l) <;> simp
        rw [if_neg (by simp [h1']), h1']
        simp only [Bool.not_false, if_true]
        by_cases h2 : 5 ≤ (cleanLine l).length ∧ 7 * (cleanLine l).length < 10 * (cleanLine l).count '<'
        · rw [if_pos h2, List.filter_cons_of_pos (by simp [h2])]
          simp [ih]
        · rw [if_neg h2, List.filter_cons_of_neg (by simp [h2])]
          exact ih

/-- C9, counterexample: a non-empty cleaned line with exactly 70% filler
(7 of 10 chars) and no Line-2 shape is NOT appended as a continuation —
the code requires strictly more than 70% — so the reconstructed pair from
`c9Text` omits the fragment the claim says must be appended. -/
theorem c9_seventy_percent_counterexample :
    c9Frag ≠ [] ∧ cleanLine c9Frag = c9Frag ∧ reMatchTest line2ShapeRE c9Frag = false ∧
    7 * c9Frag.length ≤ 10 * c9Frag.count '<' ∧
    find_mrz_lines c9Text = [(norm44 c9Partial, norm44 c3L2)] ∧
    norm44 c9Partial ≠ norm44 (c9Partial ++ c9Frag) := by decide

end OcrService

namespace OcrService

/-- `lastOf` peels one consumed char. -/
theorem lastOf_cons (prev : Option Char) (c : Char) (l : Str) :
    lastOf prev (c :: l) = lastOf (some c) l := by
  cases l with
  | nil => rfl
  | cons d t =>
    unfold lastOf
    rw [List.getLast?_cons_cons]
    cases h : (d :: t).getLast? with
    | some x => rfl
    | none => exact absurd h (by simp)

/-- Exact-width repetition consumes exactly `n` class characters. -/
theorem repMatch_exact {β : Type} (p : Char → Bool) :
    ∀ (n : Nat) (s : Str) (prev : Option Char) (caps : Caps) (k : ReK β),
      repMatch p n n prev s caps k =
        if n ≤ s.length ∧ (s.take n).all p then
          k (lastOf prev (s.take n)) (s.drop n) caps
        else none := by
  intro n
  induction n with
  | zero =>
    intro s prev caps k
    simp [repMatch, lastOf]
  | succ m ih =>
    intro s prev caps k
    cases s with
    | nil =>
      simp [repMatch]
    | cons c rest =>
      simp only [repMatch]
      by_cases hc : p c
      · rw [if_pos hc, if_neg (Nat.succ_ne_zero m)]
        simp only [Nat.add_sub_cancel]
        rw [ih rest (some c) caps k]
        by_cases h2 : m ≤ rest.length ∧ (rest.take m).all p
        · rw [if_pos h2, if_pos (by
            refine ⟨by simp; omega, ?_⟩
            rw [List.take_succ_cons, List.all_cons]
            simp [hc, h2.2])]
          rw [List.take_succ_cons, List.drop_succ_cons, lastOf_cons]
        · rw [if_neg h2, if_neg (by
            rintro ⟨hl, ha⟩
            rw [List.take_succ_cons, List.all_cons] at ha
            simp only [Bool.and_eq_true] at ha
            refine h2 ⟨?_, ha.2⟩
            simp at hl
            omega)]
      · rw [if_neg hc, if_neg (Nat.succ_ne_zero m), if_neg (by
          rintro ⟨hl, ha⟩
          rw [List.take_succ_cons, List.all_cons] at ha
          simp only [Bool.and_eq_true] at ha
          exact hc ha.1)]

end OcrService

namespace OcrService

/-- Decompose an in-bounds `drop` into head and tail. -/
theorem drop_getD_cons (l : Str) (n : Nat) (h : n < l.length) :
    l.drop n = l.getD n ' ' :: l.drop (n + 1) := by
  rw [List.drop_eq_getElem_cons h]
  congr 1
  rw [List.getD_eq_getElem l ' ' h]

/-- The Line-2 regex matches a string of length >= 30 iff the six
fixed-width positional conditions hold. -/
theorem reTest_line2_char (line : Str) (h30 : 30 ≤ line.length) :
    reMatchTest line2RE line = true ↔
      ((line.take 9).all isMrzChar = true ∧ digitFiller (line.getD 9 ' ') = true
        ∧ ((line.drop 10).take 3).all isUpperAZ = true
        ∧ ((line.drop 13).take 6).all Char.isDigit = true
        ∧ digitFiller (line.getD 19 ' ') = true ∧ mfFiller (line.getD 20 ' ') = true) := by
  unfold reMatchTest reMatchStart line2RE seqList
  simp only [List.foldr, reMatch]
  rw [repMatch_exact]
  by_cases hA : (line.take 9).all isMrzChar = true
  · rw [if_pos ⟨by omega, hA⟩, drop_getD_cons line 9 (by omega)]
    dsimp only
    by_cases hB : digitFiller (line.getD 9 ' ') = true
    · rw [if_pos hB, repMatch_exact]
      have e10 : (9 : Nat) + 1 = 10 := rfl
      rw [e10]
      by_cases hC : ((line.drop 10).take 3).all isUpperAZ = true
      · rw [if_pos ⟨by simp; omega, hC⟩, repMatch_exact]
        rw [List.drop_drop]
        have e13 : (3 : Nat) + 10 = 13 := rfl
        rw [e13]
        by_cases hD : ((line.drop 13).take 6).all Char.isDigit = true
        · rw [if_pos ⟨by simp; omega, hD⟩]
          rw [List.drop_drop]
          have e19 : (6 : Nat) + 13 = 19 := rfl
          rw [e19, drop_getD_cons line 19 (by omega)]
          dsimp only
          by_cases hE : digitFiller (line.getD 19 ' ') = true
          · rw [if_pos hE]
            have e20 : (19 : Nat) + 1 = 20 := rfl
            rw [e20, drop_getD_cons line 20 (by omega)]
            dsimp only
            by_cases hF : mfFiller (line.getD 20 ' ') = true
            · rw [if_pos hF]
              exact iff_of_true rfl ⟨hA, hB, hC, hD, hE, hF⟩
            · rw [if_neg hF]
              exact iff_of_false (by simp) (fun hcon => hF hcon.2.2.2.2.2)
          · rw [if_neg hE]
            exact iff_of_false (by simp) (fun hcon => hE hcon.2.2.2.2.1)
        · rw [if_neg (by rintro ⟨_, hcon⟩; exact hD hcon)]
          exact iff_of_false (by simp) (fun hcon => hD hcon.2.2.2.1)
      · rw [if_neg (by rintro ⟨_, hcon⟩; exact hC hcon)]
        exact iff_of_false (by simp) (fun hcon => hC hcon.2.2.1)
    · rw [if_neg hB]
      exact iff_of_false (by simp) (fun hcon => hB hcon.2.1)
  · rw [if_neg (by rintro ⟨_, hcon⟩; exact hA hcon)]
    exact iff_of_false (by simp) (fun hcon => hA hcon.1)

end OcrService

namespace OcrService

/-- C2, amended: `validate_mrz_line2(line)` is true iff the line has length
at least 30 and, from offset 0: 9 chars in `[A-Z0-9<]`, one char in
`[0-9<]`, 3 uppercase letters, 6 digits, AND ADDITIONALLY one char in
`[0-9<]` at offset 19 (DOB check digit) and one char in `[MF<]` at offset
20 (sex) — two positions the claim omits. -/
theorem validate_line2_characterization (line : Str) :
    validate_mrz_line2 line = true ↔
      (30 ≤ line.length ∧ (line.take 9).all isMrzChar = true
        ∧ digitFiller (line.getD 9 ' ') = true
        ∧ ((line.drop 10).take 3).all isUpperAZ = true
        ∧ ((line.drop 13).take 6).all Char.isDigit = true
        ∧ digitFiller (line.getD 19 ' ') = true
        ∧ mfFiller (line.getD 20 ' ') = true) := by
  unfold validate_mrz_line2
  by_cases h : line = [] ∨ line.length < 30
  · rw [if_pos h]
    refine iff_of_false (by simp) (fun hcon => ?_)
    rcases h with h | h
    · rw [h] at hcon
      simp at hcon
    · omega
  · rw [if_neg h]
    push_neg at h
    have h30 : 30 ≤ line.length := by omega
    by_cases ht : reMatchTest line2RE line = true
    · rw [if_neg (by simp [ht])]
      have hc := (reTest_line2_char line h30).mp ht
      exact iff_of_true rfl ⟨h30, hc.1, hc.2.1, hc.2.2.1, hc.2.2.2.1, hc.2.2.2.2.1,
        hc.2.2.2.2.2⟩
    · rw [if_pos (by simp [ht])]
      refine iff_of_false (by simp) (fun hcon => ?_)
      exact ht ((reTest_line2_char line h30).mpr
        ⟨hcon.2.1, hcon.2.2.1, hcon.2.2.2.1, hcon.2.2.2.2.1, hcon.2.2.2.2.2.1,
         hcon.2.2.2.2.2.2⟩)

/-- C2, counterexample: a 30-char line satisfying every condition of the
claim (9 filler/alnum chars, check char, 3 letters, 6 digits from offset 0)
that `validate_mrz_line2` nevertheless rejects, because its offset 19 holds
`'A'` (not in `[0-9<]`). -/
theorem validate_line2_counterexample :
    validate_mrz_line2 c2Line = false ∧ 30 ≤ c2Line.length ∧
    (c2Line.take 9).all isMrzChar = true ∧ digitFiller (c2Line.getD 9 ' ') = true ∧
    ((c2Line.drop 10).take 3).all isUpperAZ = true ∧
    ((c2Line.drop 13).take 6).all Char.isDigit = true := by decide

end OcrService

namespace OcrService

/-- Normalization always yields exactly 44 characters. -/
theorem norm44_length (s : Str) : (norm44 s).length = 44 := by
  unfold norm44
  have h : (s.take 44).length ≤ 44 := by
    simp [List.length_take]
  simp only [List.length_append, List.length_replicate]
  omega

/-- Normalization preserves the MRZ character set (`<` padding included). -/
theorem norm44_all (s : Str) (h : s.all isMrzChar = true) :
    (norm44 s).all isMrzChar = true := by
  unfold norm44
  rw [List.all_append, Bool.and_eq_true]
  simp only [List.all_eq_true] at h ⊢
  refine ⟨fun c hc => h c (List.mem_of_mem_take hc), fun c hc => ?_⟩
  rw [List.eq_of_mem_replicate hc]
  decide

/-- Cleaned lines contain only `[A-Z0-9<]`. -/
theorem cleanLine_all (s : Str) : (cleanLine s).all isMrzChar = true := by
  simp only [cleanLine, List.all_eq_true]
  intro c hc
  exact List.of_mem_filter hc

/-- One pairing step keeps the old best line or picks the candidate. -/
theorem bestLine2Step_mem (i : Nat) (st : Int × Int × Option Str) (cand : Nat × Str × Int) :
    (bestLine2Step i st cand).2.2 = st.2.2 ∨ (bestLine2Step i st cand).2.2 = some cand.2.1 := by
  simp only [bestLine2Step]
  split_ifs <;> simp

/-- The pairing fold returns the initial line or one of the candidates. -/
theorem foldl_bestLine2_mem (i : Nat) :
    ∀ (cands : List (Nat × Str × Int)) (st : Int × Int × Option Str),
      (cands.foldl (bestLine2Step i) st).2.2 = st.2.2 ∨
        ∃ x ∈ cands, (cands.foldl (bestLine2Step i) st).2.2 = some x.2.1 := by
  intro cands
  induction cands with
  | nil => intro st; exact Or.inl rfl
  | cons y ys ih =>
    intro st
    rw [List.foldl_cons]
    rcases ih (bestLine2Step i st y) with h | ⟨x, hx, hh⟩
    · rcases bestLine2Step_mem i st y with h2 | h2
      · exact Or.inl (h.trans h2)
      · exact Or.inr ⟨y, List.mem_cons_self y ys, h.trans h2⟩
    · exact Or.inr ⟨x, List.mem_cons_of_mem y hx, hh⟩

/-- A selected best Line 2 is one of the Line-2 candidates. -/
theorem bestLine2_mem (i : Nat) (cands : List (Nat × Str × Int)) (l2 : Str)
    (h : bestLine2 i cands = some l2) : ∃ x ∈ cands, x.2.1 = l2 := by
  unfold bestLine2 at h
  rcases foldl_bestLine2_mem i cands ((-1 : Int), (-1 : Int), none) with h0 | ⟨x, hx, hh⟩
  · rw [h] at h0
    exact absurd h0 (by simp)
  · rw [h] at hh
    exact ⟨x, hx, (Option.some.injEq _ _ ▸ hh).symm⟩

/-- Continuation fragments collected by the split-line scan are cleaned lines. -/
theorem scan2_parts_all (w : List Str) : ∀ pp ∈ (scan2 w).1, pp.all isMrzChar = true := by
  induction w with
  | nil => intro pp hpp; simp [scan2] at hpp
  | cons l rest ih =>
    intro pp hpp
    simp only [scan2] at hpp
    split_ifs at hpp with h0 h1 h2
    · exact ih pp hpp
    · simp at hpp
    · rcases List.mem_cons.mp hpp with h | h
      · rw [h]; exact cleanLine_all l
      · exact ih pp h
    · exact ih pp hpp

/-- A Line 2 found by the split-line scan is a normalized cleaned line. -/
theorem scan2_line2_norm (w : List Str) (l2 : Str) (h : (scan2 w).2 = some l2) :
    ∃ s, l2 = norm44 (cleanLine s) := by
  induction w with
  | nil => simp [scan2] at h
  | cons l rest ih =>
    simp only [scan2] at h
    split_ifs at h with h0 h1 h2
    · exact ih h
    · exact ⟨l, by simpa using h.symm⟩
    · exact ih h
    · exact ih h

end OcrService

namespace OcrService

/-- Inversion for guarded `some` results. -/
theorem ite_some_eq {α : Type} (c : Prop) [Decidable c] (v x : α)
    (h : (if c then some v else none) = some x) : x = v := by
  split_ifs at h
  exact (Option.some.injEq _ _ ▸ h).symm

/-- Membership in a stable insertion. -/
theorem mem_insertStable {α : Type} (le : α → α → Bool) (x y : α) :
    ∀ l : List α, (y ∈ insertStable le x l ↔ y = x ∨ y ∈ l) := by
  intro l
  induction l with
  | nil => simp [insertStable]
  | cons z zs ih =>
    by_cases h : le x z = true
    · rw [show insertStable le x (z :: zs) = x :: z :: zs from by simp [insertStable, h]]
      try simp only [List.mem_cons]
      try tauto
    · rw [show insertStable le x (z :: zs) = z :: insertStable le x zs from by
        simp [insertStable, h]]
      try simp only [List.mem_cons, ih]
      try tauto

/-- The stable sort is a permutation (membership form). -/
theorem mem_stableSortBy {α : Type} (le : α → α → Bool) (y : α) :
    ∀ l : List α, (y ∈ stableSortBy le l ↔ y ∈ l) := by
  intro l
  induction l with
  | nil => exact Iff.rfl
  | cons z zs ih =>
    rw [show stableSortBy le (z :: zs) = insertStable le z (stableSortBy le zs) from rfl]
    rw [mem_insertStable, List.mem_cons, ih]

/-- Inversion for `findSome?`. -/
theorem findSome_exists_mem {α β : Type} (f : α → Option β) (b : β) :
    ∀ l : List α, l.findSome? f = some b → ∃ a ∈ l, f a = some b := by
  intro l
  induction l with
  | nil => intro h; simp [List.findSome?] at h
  | cons x xs ih =>
    intro h
    rw [show (x :: xs).findSome? f
        = (match f x with | some b => some b | none => xs.findSome? f) from rfl] at h
    cases hf : f x with
    | some v =>
      rw [hf] at h
      exact ⟨x, List.mem_cons_self x xs, hf.trans h⟩
    | none =>
      rw [hf] at h
      obtain ⟨a, ha, hfa⟩ := ih h
      exact ⟨a, List.mem_cons_of_mem x ha, hfa⟩

/-- A Line 1 found by backward search is a normalized cleaned line. -/
theorem backScan1_norm (lines : List Str) (i : Nat) (l1 : Str)
    (h : backScan1 lines i = some l1) : ∃ s, l1 = norm44 (cleanLine s) := by
  unfold backScan1 at h
  obtain ⟨j, hj, hf⟩ := findSome_exists_mem _ _ _ h
  simp only [] at hf
  split_ifs at hf
  exact ⟨lines.getD j [], by simpa using hf.symm⟩

end OcrService

namespace OcrService

/-- C7: every pair emitted by `find_mrz_lines` — by direct pairing,
split-line reconstruction or backward search — consists of two lines of
exactly 44 characters drawn from `[A-Z0-9<]`. -/
theorem find_mrz_lines_normalized (t : Str) (p : Str × Str) (hp : p ∈ find_mrz_lines t) :
    p.1.length = 44 ∧ p.2.length = 44 ∧ p.1.all isMrzChar = true
      ∧ p.2.all isMrzChar = true := by
  suffices H : (∃ a, p.1 = norm44 a ∧ a.all isMrzChar = true) ∧
      (∃ b, p.2 = norm44 b ∧ b.all isMrzChar = true) by
    obtain ⟨⟨a, ha1, ha2⟩, ⟨b, hb1, hb2⟩⟩ := H
    rw [ha1, hb1]
    exact ⟨norm44_length a, norm44_length b, norm44_all a ha2, norm44_all b hb2⟩
  simp only [find_mrz_lines] at hp
  split_ifs at hp with h1 h2
  · -- strategy 1
    obtain ⟨ic, hic, hmap⟩ := List.mem_filterMap.mp hp
    obtain ⟨l2, hbest, hpair⟩ := Option.map_eq_some'.mp hmap
    obtain ⟨il, _, hif⟩ := List.mem_filterMap.mp hic
    have hic2 := ite_some_eq _ _ _ hif
    obtain ⟨x, hx, hxe⟩ := bestLine2_mem _ _ _ hbest
    obtain ⟨il2, _, hif2⟩ := List.mem_filterMap.mp hx
    have hx2 := ite_some_eq _ _ _ hif2
    rw [← hpair]
    constructor
    · exact ⟨ic.2, by rw [hic2], by rw [hic2]; exact cleanLine_all _⟩
    · exact ⟨l2, rfl, by rw [← hxe, hx2]; exact cleanLine_all _⟩
  · -- strategy 2
    obtain ⟨il, _, hif⟩ := List.mem_filterMap.mp hp
    by_cases hc : pyStartsWith (toL "P<") (cleanLine il.2) = true
        ∧ containsSub (toL "<<") (cleanLine il.2) = true
        ∧ 15 ≤ (cleanLine il.2).length ∧ (cleanLine il.2).length < 44
    · rw [if_pos hc] at hif
      rcases hscan : scan2 (List.take 9 (List.drop (il.1 + 1) (splitChar '\n' t)))
        with ⟨parts, o⟩
      rw [hscan] at hif
      cases o with
      | none => simp at hif
      | some line2 =>
        simp only [] at hif
        have hpe : p = (norm44 (cleanLine il.2 ++ parts.flatten), line2) :=
          (Option.some.injEq _ _ ▸ hif).symm
        obtain ⟨s, hs⟩ := scan2_line2_norm _ line2 (by rw [hscan])
        rw [hpe]
        constructor
        · refine ⟨cleanLine il.2 ++ parts.flatten, rfl, ?_⟩
          rw [List.all_append, Bool.and_eq_true]
          refine ⟨cleanLine_all _, ?_⟩
          simp only [List.all_eq_true]
          intro c hcm
          obtain ⟨pp, hpp, hcp⟩ := List.mem_flatten.mp hcm
          have hall := scan2_parts_all _ pp (by rw [hscan]; exact hpp)
          exact (List.all_eq_true.mp hall) c hcp
        · exact ⟨cleanLine s, hs, cleanLine_all _⟩
    · rw [if_neg hc] at hif
      simp at hif
  · -- strategy 3
    obtain ⟨ic, hic, hmap⟩ := List.mem_filterMap.mp hp
    obtain ⟨l1, hback, hpair⟩ := Option.map_eq_some'.mp hmap
    rw [mem_stableSortBy] at hic
    obtain ⟨il2, _, hif2⟩ := List.mem_filterMap.mp hic
    have hx2 := ite_some_eq _ _ _ hif2
    obtain ⟨s, hs⟩ := backScan1_norm _ _ _ hback
    rw [← hpair]
    constructor
    · exact ⟨cleanLine s, by rw [hs], cleanLine_all _⟩
    · exact ⟨ic.2.1, rfl, by rw [hx2]; exact cleanLine_all _⟩

end OcrService

namespace OcrService

/-- C7, witness. -/
theorem find_mrz_lines_normalized_witness :
    (norm44 c9Partial, norm44 c3L2).1.length = 44
      ∧ (norm44 c9Partial, norm44 c3L2).2.length = 44
      ∧ (norm44 c9Partial, norm44 c3L2).1.all isMrzChar = true
      ∧ (norm44 c9Partial, norm44 c3L2).2.all isMrzChar = true :=
  find_mrz_lines_normalized c9Text (norm44 c9Partial, norm44 c3L2) (by decide)

end OcrService

namespace OcrService

/-- The Tier-1 confidence takes one of its two literal values. -/
theorem ifconf80 (c : Prop) [Decidable c] :
    (if c then (80 : Nat) else 50) = 80 ∨ (if c then (80 : Nat) else 50) = 50 := by
  split_ifs
  · exact Or.inl rfl
  · exact Or.inr rfl

/-- The Tier-2 confidence takes one of its two literal values. -/
theorem ifconf50 (c : Prop) [Decidable c] :
    (if c then (50 : Nat) else 30) = 50 ∨ (if c then (50 : Nat) else 30) = 30 := by
  split_ifs
  · exact Or.inl rfl
  · exact Or.inr rfl

/-- The name-section parser only flags the two name fields. -/
theorem parse_names_flags_sub (ns : Str) (f : Str)
    (hf : f ∈ (parse_mrz_names ns).2.2.2) : f = fnFirstS ∨ f = fnLastS := by
  simp only [parse_mrz_names] at hf
  split_ifs at hf
  · simp only [List.mem_cons, List.not_mem_nil, or_false] at hf
    tauto
  · split at hf
    · simp only [List.mem_cons, List.not_mem_nil, or_false] at hf
      tauto
    · split at hf
      · simp only [List.mem_append, mem_flagIte, List.mem_cons, List.not_mem_nil,
          or_false] at hf
        tauto
      · split at hf
        · simp only [List.mem_append, mem_flagIte, List.mem_cons, List.not_mem_nil,
            or_false] at hf
          tauto
        · simp only [List.mem_append, mem_flagIte] at hf
          tauto

/-- Every Tier-1 record is a flagged best-effort record: confidence is 0.8
or 0.5 and only the six field names are ever flagged. -/
theorem parse_manual_wellformed (l1 l2 : Str) :
    ((parse_mrz_manual l1 l2).confidence = 80 ∨ (parse_mrz_manual l1 l2).confidence = 50)
    ∧ ∀ f ∈ (parse_mrz_manual l1 l2).low_confidence_fields, f ∈ sixFieldNames := by
  simp only [parse_mrz_manual]
  constructor
  · exact ifconf80 _
  · intro f hf
    simp only [List.mem_dedup, List.mem_append] at hf
    rcases hf with ((((hf | hf) | hf) | hf) | hf)
    · rcases parse_names_flags_sub _ f hf with h | h <;> (rw [h]; decide)
    · rw [mem_flagIte] at hf
      rw [hf.2]
      decide
    · rw [mem_flagIte] at hf
      rw [hf.2]
      decide
    · rw [mem_flagIte] at hf
      rw [hf.2]
      decide
    · rw [mem_flagIte] at hf
      rw [hf.2]
      decide

/-- Every Tier-2 record is a flagged best-effort record: confidence is 0.5
or 0.3 and only the six field names are ever flagged. -/
theorem buildTier2_wellformed (a b c d e f g : Str) (r : PassportData)
    (h : buildTier2 a b c d e f g = some r) :
    (r.confidence = 50 ∨ r.confidence = 30)
    ∧ ∀ x ∈ r.low_confidence_fields, x ∈ sixFieldNames := by
  unfold buildTier2 at h
  by_cases hg : a ≠ [] ∨ b ≠ [] ∨ d ≠ []
  · rw [if_pos hg, Option.some.injEq] at h
    rw [← h]
    refine ⟨ifconf50 _, ?_⟩
    intro x hx
    simp only [List.mem_dedup, List.mem_append, mem_flagIte] at hx
    rcases hx with ((((⟨_, hx⟩ | ⟨_, hx⟩) | ⟨_, hx⟩) | ⟨_, hx⟩) | ⟨_, hx⟩) | ⟨_, hx⟩ <;>
      (rw [hx]; decide)
  · rw [if_neg hg] at h
    exact absurd h (by simp)

/-- C8: totality and graceful degradation.  The embedded
`find_mrz_lines`, `extract_fields_from_text` and `parse_mrz_manual` are
total Lean functions (every guarded partial operation of the source is
modelled by the same guard), so no input raises; degraded inputs yield the
empty pair list or `none`, and every record either parser produces is a
flagged best-effort record (two-valued confidence, flags drawn from the
six field names), never an error. -/
theorem engine_totality_degradation :
    find_mrz_lines [] = [] ∧ extract_fields_from_text [] = none ∧
    (∀ l1 l2 : Str,
      ((parse_mrz_manual l1 l2).confidence = 80 ∨ (parse_mrz_manual l1 l2).confidence = 50)
      ∧ ∀ f ∈ (parse_mrz_manual l1 l2).low_confidence_fields, f ∈ sixFieldNames) ∧
    (∀ t : Str, ∀ d : PassportData, extract_fields_from_text t = some d →
      (d.confidence = 50 ∨ d.confidence = 30)
      ∧ ∀ f ∈ d.low_confidence_fields, f ∈ sixFieldNames) := by
  refine ⟨by decide, by decide, parse_manual_wellformed, ?_⟩
  intro t d h
  simp only [extract_fields_from_text] at h
  exact buildTier2_wellformed _ _ _ _ _ _ _ _ h

/-- C8, witness. -/
theorem engine_totality_degradation_witness :
    ((parse_mrz_manual [] []).confidence = 80 ∨ (parse_mrz_manual [] []).confidence = 50)
    ∧ fnFirstS ∈ sixFieldNames
    ∧ (recGender.confidence = 50 ∨ recGender.confidence = 30) :=
  ⟨(engine_totality_degradation.2.2.1 [] []).1,
   (engine_totality_degradation.2.2.1 [] []).2 fnFirstS (by decide),
   (engine_totality_degradation.2.2.2 tGender recGender (by decide)).1⟩

end OcrService
